import Mathlib

/-!
Verification development for the `lang-app` text-analysis service.

The Python sources under `src/services/language_analysis/` are shallowly
embedded below:
* Python `str` is modelled as `List Char` (`Str`), so that slicing,
  stripping and searching are ordinary list operations;
* Python `float` time stamps and durations are modelled as `ℚ`
  (only order and field operations on them matter to the code);
* Python `dict` (which preserves insertion order and has unique keys)
  is modelled as an insertion-ordered association list, with
  `dictFind?` / `dictSet` / `dictDel` mirroring `d[k]` / `d[k] = v` /
  `del d[k]`;
* code that can raise returns `Except Str`;
* external libraries (Stanza, LanguageTool) are black boxes; their
  outputs are passed to the embedded functions as explicit oracle
  arguments, exactly at the call sites where the Python code calls them.
-/

set_option maxHeartbeats 1000000

/-- Python `str` is a sequence of characters. -/
abbrev Str : Type := List Char

/-- Whitespace characters recognised by Python's `str.strip()` /
`str.split()` (ASCII subset; the Unicode extras are irrelevant here). -/
def pyIsSpace (c : Char) : Bool :=
  c = ' ' || c = '\t' || c = '\n' || c = '\r' || c = '\x0b' || c = '\x0c'

/-- Python `text.strip()`: drop whitespace from both ends. -/
def pyStrip (s : Str) : Str :=
  ((s.dropWhile pyIsSpace).reverse.dropWhile pyIsSpace).reverse

/-- Python `text.lower()` (character-wise lowering). -/
def pyLower (s : Str) : Str := s.map Char.toLower

/-- Python `text.split()`: split on whitespace runs, discarding empties. -/
def pySplit (s : Str) : List Str :=
  (s.splitOnP pyIsSpace).filter (fun w => w ≠ [])

/-- Python `sep.join(parts)`. -/
def pyJoin (sep : Str) (parts : List Str) : Str := sep.intercalate parts

/-- Python `hay.find(needle)`: index of the first occurrence of `needle`
in `hay`, `none` standing for Python's `-1`. -/
def listFind (hay needle : Str) : Option Nat :=
  (List.range (hay.length + 1)).find? (fun i => needle.isPrefixOf (hay.drop i))

/-! ### Python `dict` as an insertion-ordered association list -/

/-- `d[k]`, as an option. -/
def dictFind? {κ β : Type} [DecidableEq κ] : List (κ × β) → κ → Option β
  | [], _ => none
  | p :: rest, k => if p.1 = k then some p.2 else dictFind? rest k

/-- `k in d`. -/
def dictHas {κ β : Type} [DecidableEq κ] (m : List (κ × β)) (k : κ) : Bool :=
  (dictFind? m k).isSome

/-- `d[k] = v`: overwrite in place if the key is present (keys are unique
in a real `dict`), otherwise append at the end (insertion order). -/
def dictSet {κ β : Type} [DecidableEq κ] : List (κ × β) → κ → β → List (κ × β)
  | [], k, v => [(k, v)]
  | p :: rest, k, v => if p.1 = k then (k, v) :: rest else p :: dictSet rest k v

/-- `del d[k]`: remove the (unique) binding of `k`. -/
def dictDel {κ β : Type} [DecidableEq κ] : List (κ × β) → κ → List (κ × β)
  | [], _ => []
  | p :: rest, k => if p.1 = k then rest else p :: dictDel rest k

theorem dictFind?_dictSet_self {κ β : Type} [DecidableEq κ]
    (m : List (κ × β)) (k : κ) (v : β) : dictFind? (dictSet m k v) k = some v := by
  induction m with
  | nil => simp [dictSet, dictFind?]
  | cons p rest ih =>
    by_cases h : p.1 = k
    · simp [dictSet, h, dictFind?]
    · simp [dictSet, h, dictFind?, ih]

theorem dictFind?_dictSet_ne {κ β : Type} [DecidableEq κ]
    (m : List (κ × β)) (k k' : κ) (v : β) (hne : k ≠ k') :
    dictFind? (dictSet m k v) k' = dictFind? m k' := by
  induction m with
  | nil => simp [dictSet, dictFind?, hne]
  | cons p rest ih =>
    by_cases h : p.1 = k
    · simp [dictSet, h, dictFind?, hne]
    · simp [dictSet, h, dictFind?, ih]

theorem dictSet_absent {κ β : Type} [DecidableEq κ]
    (m : List (κ × β)) (k : κ) (v : β) (h : dictFind? m k = none) :
    dictSet m k v = m ++ [(k, v)] := by
  induction m with
  | nil => simp [dictSet]
  | cons p rest ih =>
    by_cases hp : p.1 = k
    · simp [dictFind?, hp] at h
    · simp [dictFind?, hp] at h
      simp [dictSet, hp, ih h]

theorem dictSet_length_le {κ β : Type} [DecidableEq κ]
    (m : List (κ × β)) (k : κ) (v : β) :
    (dictSet m k v).length ≤ m.length + 1 := by
  induction m with
  | nil => simp [dictSet]
  | cons p rest ih =>
    by_cases h : p.1 = k
    · simp [dictSet, h]
    · simpa [dictSet, h, Nat.succ_le_succ] using Nat.succ_le_succ ih

theorem dictSet_length_present {κ β : Type} [DecidableEq κ]
    (m : List (κ × β)) (k : κ) (v : β) (h : (dictFind? m k).isSome) :
    (dictSet m k v).length = m.length := by
  induction m with
  | nil => simp [dictFind?] at h
  | cons p rest ih =>
    by_cases hp : p.1 = k
    · simp [dictSet, hp]
    · simp [dictFind?, hp] at h
      simp [dictSet, hp, ih h]

theorem dictDel_length_present {κ β : Type} [DecidableEq κ]
    (m : List (κ × β)) (k : κ) (h : (dictFind? m k).isSome) :
    (dictDel m k).length + 1 = m.length := by
  induction m with
  | nil => simp [dictFind?] at h
  | cons p rest ih =>
    by_cases hp : p.1 = k
    · simp [dictDel, hp]
    · simp [dictFind?, hp] at h
      simp [dictDel, hp]
      exact ih h

theorem dictDel_length_le {κ β : Type} [DecidableEq κ]
    (m : List (κ × β)) (k : κ) : (dictDel m k).length ≤ m.length := by
  induction m with
  | nil => simp [dictDel]
  | cons p rest ih =>
    by_cases hp : p.1 = k
    · simp [dictDel, hp]
    · simp only [dictDel, hp, if_false, List.length_cons]
      omega

/-- Keys of an association list. -/
def dictKeys {κ β : Type} (m : List (κ × β)) : List κ := m.map Prod.fst

@[simp] theorem dictKeys_nil {κ β : Type} : dictKeys ([] : List (κ × β)) = [] := rfl

@[simp] theorem dictKeys_cons {κ β : Type} (p : κ × β) (rest : List (κ × β)) :
    dictKeys (p :: rest) = p.1 :: dictKeys rest := rfl

theorem dictFind?_eq_none_of_not_mem {κ β : Type} [DecidableEq κ]
    (m : List (κ × β)) (k : κ) (h : k ∉ dictKeys m) : dictFind? m k = none := by
  induction m with
  | nil => rfl
  | cons p rest ih =>
    rw [dictKeys_cons, List.mem_cons] at h
    push_neg at h
    have hp : ¬ p.1 = k := fun hE => h.1 hE.symm
    simp [dictFind?, hp, ih h.2]

theorem dictFind?_isSome_of_mem {κ β : Type} [DecidableEq κ]
    (m : List (κ × β)) (k : κ) (h : k ∈ dictKeys m) : (dictFind? m k).isSome := by
  induction m with
  | nil => simp at h
  | cons p rest ih =>
    by_cases hp : p.1 = k
    · simp [dictFind?, hp]
    · rw [dictKeys_cons, List.mem_cons] at h
      rcases h with h | h
      · exact absurd h.symm hp
      · simp only [dictFind?, hp, if_false]
        exact ih h

theorem dictFind?_dictDel_self {κ β : Type} [DecidableEq κ]
    (m : List (κ × β)) (k : κ) (hnd : (dictKeys m).Nodup) :
    dictFind? (dictDel m k) k = none := by
  induction m with
  | nil => rfl
  | cons p rest ih =>
    rw [dictKeys_cons, List.nodup_cons] at hnd
    by_cases hp : p.1 = k
    · simp only [dictDel, hp, if_true]
      exact dictFind?_eq_none_of_not_mem rest k (hp ▸ hnd.1)
    · simp [dictDel, hp, dictFind?, ih hnd.2]

theorem dictKeys_dictDel_sublist {κ β : Type} [DecidableEq κ]
    (m : List (κ × β)) (k : κ) : (dictKeys (dictDel m k)).Sublist (dictKeys m) := by
  induction m with
  | nil => simp [dictDel]
  | cons p rest ih =>
    by_cases hp : p.1 = k
    · simp only [dictDel, hp, if_true, dictKeys_cons]
      exact List.sublist_cons_self _ _
    · simp only [dictDel, hp, if_false, dictKeys_cons]
      exact List.Sublist.cons₂ _ ih

theorem dictFind?_dictDel_ne {κ β : Type} [DecidableEq κ]
    (m : List (κ × β)) (k k' : κ) (hne : k ≠ k') :
    dictFind? (dictDel m k) k' = dictFind? m k' := by
  induction m with
  | nil => simp [dictDel]
  | cons p rest ih =>
    by_cases hp : p.1 = k
    · have hp' : ¬ p.1 = k' := fun hE => hne ((hp.symm.trans hE))
      simp [dictDel, hp, dictFind?, hp', hne]
    · simp [dictDel, hp, dictFind?, ih]

theorem dictFind?_of_mem_nodup {κ β : Type} [DecidableEq κ]
    (m : List (κ × β)) (k : κ) (v : β) (hmem : (k, v) ∈ m)
    (hnd : (dictKeys m).Nodup) : dictFind? m k = some v := by
  induction m with
  | nil => simp at hmem
  | cons p rest ih =>
    rw [dictKeys_cons, List.nodup_cons] at hnd
    rcases List.mem_cons.mp hmem with h | h
    · rw [← h]
      simp [dictFind?]
    · have hne : ¬ p.1 = k := by
        intro hE
        exact hnd.1 (hE ▸ (by simpa [dictKeys] using List.mem_map_of_mem Prod.fst h))
      simp only [dictFind?, hne, if_false]
      exact ih h hnd.2

/-! ### `utils/cache_manager.py` -/

/-- `CacheEntry` from `cache_manager.py`: one cached analysis result.
The stored `result: Dict[str, Any]` (a `model_dump()` serialization) is
kept abstract as a type parameter `α`. -/
structure CacheEntry (α : Type) where
  result : α
  timestamp : ℚ
  access_count : Nat
  last_accessed : ℚ
  deriving DecidableEq, Repr

/-- `AnalysisCache` state from `cache_manager.py`. -/
structure AnalysisCache (α : Type) where
  max_size : Nat
  ttl_seconds : ℚ
  cache : List (Str × CacheEntry α)
  hits : Nat
  misses : Nat
  deriving DecidableEq, Repr

/-- `AnalysisCache.__init__` with explicit arguments (defaults 1000/3600). -/
def AnalysisCache.init (α : Type) (max_size : Nat) (ttl_seconds : ℚ) : AnalysisCache α :=
  { max_size := max_size, ttl_seconds := ttl_seconds, cache := [], hits := 0, misses := 0 }

/-- `AnalysisCache._generate_key`: the Python code hashes
`f"{text.strip().lower()}:{language}"` with MD5.  The hash is modelled by
its (injective, up to the collisions the spec declares negligible)
pre-image: the normalized content string itself. -/
def generate_key (text language : Str) : Str :=
  pyLower (pyStrip text) ++ [':'] ++ language

/-- `AnalysisCache.get`: returns the cached result (if present and not
expired) together with the updated cache state.  `now` stands for the
`time.time()` call at the top of the method. -/
def AnalysisCache.get {α : Type} (c : AnalysisCache α) (text language : Str)
    (now : ℚ) : Option α × AnalysisCache α :=
  let key := generate_key text language
  match dictFind? c.cache key with
  | some entry =>
    if now - entry.timestamp > c.ttl_seconds then
      -- expired: `del self.cache[key]`, count a miss
      (none, { c with cache := dictDel c.cache key, misses := c.misses + 1 })
    else
      -- hit: bump access statistics
      (some entry.result,
       { c with
           cache := dictSet c.cache key
             { entry with access_count := entry.access_count + 1, last_accessed := now },
           hits := c.hits + 1 })
  | none => (none, { c with misses := c.misses + 1 })

/-- The fold inside `AnalysisCache._evict_oldest`:
`min(self.cache.keys(), key=lambda k: self.cache[k].last_accessed)`.
Python's `min` keeps the first element attaining the minimum, so the
accumulator is only replaced on a strictly smaller value. -/
def evictAux {α : Type} : Str × ℚ → List (Str × CacheEntry α) → Str × ℚ
  | best, [] => best
  | best, (k, e) :: rest =>
    if e.last_accessed < best.2 then evictAux (k, e.last_accessed) rest
    else evictAux best rest

/-- The key `_evict_oldest` removes: the first key with minimal
`last_accessed` (`none` when the cache is empty). -/
def evictKey {α : Type} : List (Str × CacheEntry α) → Option Str
  | [] => none
  | (k, e) :: rest => some (evictAux (k, e.last_accessed) rest).1

/-- `AnalysisCache._evict_oldest`. -/
def AnalysisCache.evict_oldest {α : Type} (c : AnalysisCache α) : AnalysisCache α :=
  match evictKey c.cache with
  | none => c
  | some k => { c with cache := dictDel c.cache k }

/-- `AnalysisCache.set`.  Note that eviction triggers on
`len(self.cache) >= self.max_size` *before* the key is stored, without
checking whether the key is already present. -/
def AnalysisCache.set {α : Type} (c : AnalysisCache α) (text : Str) (result : α)
    (language : Str) (now : ℚ) : AnalysisCache α :=
  let key := generate_key text language
  let c1 := if c.cache.length ≥ c.max_size then c.evict_oldest else c
  { c1 with
      cache := dictSet c1.cache key
        { result := result, timestamp := now, access_count := 1, last_accessed := now } }

/-- `AnalysisCache.clear`. -/
def AnalysisCache.clear {α : Type} (c : AnalysisCache α) : AnalysisCache α :=
  { c with cache := [] }

/-- One public cache operation (used to state "after any sequence of
get/set/clear operations"). -/
inductive CacheOp (α : Type) where
  | get (text language : Str) (now : ℚ)
  | set (text : Str) (result : α) (language : Str) (now : ℚ)
  | clear

/-- Apply one operation to the cache state. -/
def applyOp {α : Type} (c : AnalysisCache α) : CacheOp α → AnalysisCache α
  | CacheOp.get text language now => (c.get text language now).2
  | CacheOp.set text result language now => c.set text result language now
  | CacheOp.clear => c.clear

/-- Apply a sequence of operations. -/
def applyOps {α : Type} (c : AnalysisCache α) (ops : List (CacheOp α)) : AnalysisCache α :=
  ops.foldl applyOp c

/-! ### `utils/performance_monitor.py` -/

/-- `PerformanceMetrics` dataclass.  `min_processing_time_ms` starts at
`float('inf')`; the infinity is modelled as `none`. -/
structure PerformanceMetrics where
  request_count : Nat
  total_processing_time_ms : ℚ
  average_processing_time_ms : ℚ
  min_processing_time_ms : Option ℚ
  max_processing_time_ms : ℚ
  error_count : Nat
  cache_hits : Nat
  cache_misses : Nat
  last_updated : ℚ
  deriving DecidableEq, Repr

/-- Zero-valued `PerformanceMetrics()` (fresh dataclass instance), at
creation time `t`. -/
def PerformanceMetrics.fresh (t : ℚ) : PerformanceMetrics :=
  { request_count := 0, total_processing_time_ms := 0, average_processing_time_ms := 0,
    min_processing_time_ms := none, max_processing_time_ms := 0, error_count := 0,
    cache_hits := 0, cache_misses := 0, last_updated := t }

/-- `RequestMetrics` dataclass. -/
structure RequestMetrics where
  start_time : ℚ
  end_time : Option ℚ
  processing_time_ms : Option ℚ
  text_length : Nat
  word_count : Nat
  success : Bool
  error_message : Option Str
  cache_hit : Bool
  deriving DecidableEq, Repr

/-- `PerformanceMonitor` state (the `component_times` map is carried but
is untouched by the operations modelled here). -/
structure PerformanceMonitor where
  max_history : Nat
  metrics : PerformanceMetrics
  request_history : List RequestMetrics
  component_times : List (Str × List ℚ)
  start_time : ℚ
  deriving DecidableEq, Repr

/-- `PerformanceMonitor.__init__` (default `max_history=1000`). -/
def PerformanceMonitor.init (max_history : Nat) (t : ℚ) : PerformanceMonitor :=
  { max_history := max_history, metrics := PerformanceMetrics.fresh t,
    request_history := [], component_times := [], start_time := t }

/-- `PerformanceMonitor.start_request` (`now` is its `time.time()` call). -/
def start_request (text : Str) (now : ℚ) : RequestMetrics :=
  { start_time := now, end_time := none, processing_time_ms := none,
    text_length := text.length, word_count := (pySplit text).length,
    success := true, error_message := none, cache_hit := false }

/-- `collections.deque(maxlen=n).append`: drop from the left when full. -/
def dequeAppend (maxlen : Nat) (h : List RequestMetrics) (x : RequestMetrics) :
    List RequestMetrics :=
  let h' := h ++ [x]
  if h'.length > maxlen then h'.drop (h'.length - maxlen) else h'

/-- The in-place mutation `end_request` performs on its `RequestMetrics`
argument (lines 100-104): every written field is overwritten, so the
object's final state after a call does not depend on earlier mutations. -/
def finalizeRequestMetrics (rm : RequestMetrics) (success : Bool)
    (error_message : Option Str) (cache_hit : Bool) (now : ℚ) : RequestMetrics :=
  { rm with end_time := some now,
            processing_time_ms := some ((now - rm.start_time) * 1000),
            success := success, error_message := error_message, cache_hit := cache_hit }

/-- `PerformanceMonitor.end_request`.

Returns the updated monitor state together with the call's outcome.  The
method's final statement is
`logger.debug(f"Request completed: {processing_time:.2f}ms, ...")`, and the
local variable `processing_time` is only assigned inside the `if success:`
branch — so when `success` is false the f-string raises an
`UnboundLocalError` *after* all counters and the history have been
updated.  The `processing_time?` option below models that local variable's
bound/unbound status. -/
def PerformanceMonitor.end_request (mon : PerformanceMonitor) (rm : RequestMetrics)
    (success : Bool) (error_message : Option Str) (cache_hit : Bool) (now : ℚ) :
    PerformanceMonitor × Except Str Unit :=
  let ptime : ℚ := (now - rm.start_time) * 1000
  let rm' : RequestMetrics := finalizeRequestMetrics rm success error_message cache_hit now
  let m0 := { mon.metrics with request_count := mon.metrics.request_count + 1,
                               last_updated := now }
  -- the Python local `processing_time`, assigned only when `success`
  let processing_time? : Option ℚ := if success then some ptime else none
  let m1 :=
    if success then
      let total := m0.total_processing_time_ms + ptime
      { m0 with total_processing_time_ms := total,
                average_processing_time_ms := total / (m0.request_count : ℚ),
                min_processing_time_ms :=
                  some (match m0.min_processing_time_ms with
                        | none => ptime
                        | some v => min v ptime),
                max_processing_time_ms := max m0.max_processing_time_ms ptime }
    else
      { m0 with error_count := m0.error_count + 1 }
  let m2 :=
    if cache_hit then { m1 with cache_hits := m1.cache_hits + 1 }
    else { m1 with cache_misses := m1.cache_misses + 1 }
  let mon' := { mon with metrics := m2,
                         request_history := dequeAppend mon.max_history mon.request_history rm' }
  match processing_time? with
  | some _ => (mon', Except.ok ())
  | none =>
      (mon', Except.error (("UnboundLocalError: local variable referenced before assignment").data))

/-! ### `utils/text_preprocessing.py` -/

/-- `TextPreprocessor.preprocess` (the `max_length` constructor argument is
passed explicitly; default 10000).  The `isinstance(text, str)` check has
no counterpart here because the embedding is typed.  The truncation branch
only logs a warning besides slicing. -/
def preprocess (max_length : Nat) (text : Str) : Except Str Str :=
  if text = [] then Except.error (("Text cannot be empty").data)
  else
    let processed_text := pyStrip text
    if processed_text = [] then
      Except.error (("Text cannot be empty or only whitespace").data)
    else if processed_text.length > max_length then
      Except.ok (processed_text.take max_length)
    else Except.ok processed_text

/-- The `valid` field of `TextPreprocessor.validate_text`: false exactly
for empty / whitespace-only text.  (The remaining fields of the returned
dict are warnings and statistics that the pipeline never reads; only
`validation['valid']` and the message drive control flow.) -/
def validate_text_valid (text : Str) : Bool :=
  ¬ (text = [] ∨ pyStrip text = [])

/-! ### `models/language_constants.py` -/

/-- `LanguageConstants.SHORT_TO_LONG_CODE`. -/
def SHORT_TO_LONG_CODE : List (Str × Str) :=
  [(("de").data, ("de-DE").data), (("en").data, ("en-US").data),
   (("fr").data, ("fr-FR").data), (("es").data, ("es-ES").data),
   (("it").data, ("it-IT").data)]

/-- `LanguageConstants.normalize_language_code`. -/
def normalize_language_code (language : Str) : Str :=
  if language.contains '-' then language
  else (dictFind? SHORT_TO_LONG_CODE (pyLower language)).getD language

/-- `LanguageAnalysisPipeline.__get_stanza_language_code`. -/
def get_stanza_language_code (language : Str) : Str :=
  if ¬ language.contains '-' then pyLower language
  else
    match language.splitOn '-' with
    | [] => []
    | s :: _ => pyLower s

/-! ### `models/analysis_result.py` (the records the processors build) -/

/-- `MorphologyFeatures` model (field `lemma`-like names are kept; the
`additional_features` dict is an association list). -/
structure MorphologyFeatures where
  Case : Option Str
  Gender : Option Str
  Number : Option Str
  Tense : Option Str
  Person : Option Str
  Mood : Option Str
  Voice : Option Str
  Degree : Option Str
  additional_features : List (Str × Str)
  deriving DecidableEq, Repr

/-- `MorphologyFeatures` with every field at its default. -/
def MorphologyFeatures.empty : MorphologyFeatures :=
  { Case := none, Gender := none, Number := none, Tense := none, Person := none,
    Mood := none, Voice := none, Degree := none, additional_features := [] }

/-- `DependencyRelation` model. -/
structure DependencyRelation where
  relation : Str
  headTokenIndex : Nat
  deriving DecidableEq, Repr

/-- `Token` model (`lemma` is a Lean keyword, hence `lemma_`). -/
structure Token where
  text : Str
  startChar : Nat
  endChar : Nat
  pos : Str
  lemma_ : Str
  morphology : MorphologyFeatures
  dependency : DependencyRelation
  deriving DecidableEq, Repr

/-- `Sentence` model. -/
structure Sentence where
  text : Str
  tokens : List Token
  deriving DecidableEq, Repr

/-- `GrammarError` model.  Character positions are `Int` because they are
computed from LanguageTool match offsets before being validated. -/
structure GrammarError where
  message : Str
  startChar : Int
  endChar : Int
  suggestions : List Str
  ruleId : Str
  deriving DecidableEq, Repr

/-- `AnalysisResult` model. -/
structure AnalysisResult where
  originalText : Str
  language : Str
  sentences : List Sentence
  errors : List GrammarError
  deriving DecidableEq, Repr

/-- `AnalysisRequest` model (the pydantic length bounds on `text` are
checked by the HTTP layer, outside the pipeline). -/
structure AnalysisRequest where
  text : Str
  language : Str
  include_grammar_check : Bool
  include_morphological_analysis : Bool
  include_dependency_parsing : Bool
  deriving DecidableEq, Repr

/-! ### `processors/stanza_processor.py` -/

/-- One word of the (black-box) Stanza document: the attributes
`analyze_comprehensive` reads.  Stanza word ids are 1-based and `head` is
0 for the root. -/
structure RawWord where
  text : Str
  id : Nat
  upos : Str
  lemma_ : Str
  feats : Option Str
  head : Nat
  deprel : Str
  deriving DecidableEq, Repr

/-- One sentence of the (black-box) Stanza document. -/
structure RawSentence where
  text : Str
  words : List RawWord
  deriving DecidableEq, Repr

/-- `StanzaProcessor.__get_character_positions`: direct `text.find`
search, then the split/join estimate keyed on the 1-based `token_id`,
then `(0, len(token_text))`. -/
def get_character_positions (text token_text : Str) (token_id : Nat) : Nat × Nat :=
  match listFind text token_text with
  | some start_pos => (start_pos, start_pos + token_text.length)
  | none =>
    let words := pySplit text
    if token_id ≤ words.length then
      let estimated_start :=
        (pyJoin [' '] (words.take (token_id - 1))).length +
          (if token_id > 1 then 1 else 0)
      (estimated_start, estimated_start + token_text.length)
    else (0, token_text.length)

/-- `StanzaProcessor.__extract_morphology`: parse the `feats` string
(`"Case=Nom|Gender=Masc|..."`), routing the eight known keys to their
fields and everything else to `additional_features` (last write wins,
as in the Python dicts). -/
def extract_morphology (feats : Option Str) : MorphologyFeatures :=
  match feats with
  | none => MorphologyFeatures.empty
  | some fs =>
    if fs = [] then MorphologyFeatures.empty
    else
      (fs.splitOn '|').foldl (fun acc feat =>
        if feat.contains '=' then
          let key := pyStrip (feat.takeWhile (fun c => c ≠ '='))
          let value := pyStrip ((feat.dropWhile (fun c => c ≠ '=')).drop 1)
          let kl := pyLower key
          if kl = ("case").data then { acc with Case := some value }
          else if kl = ("gender").data then { acc with Gender := some value }
          else if kl = ("number").data then { acc with Number := some value }
          else if kl = ("tense").data then { acc with Tense := some value }
          else if kl = ("person").data then { acc with Person := some value }
          else if kl = ("mood").data then { acc with Mood := some value }
          else if kl = ("voice").data then { acc with Voice := some value }
          else if kl = ("degree").data then { acc with Degree := some value }
          else { acc with additional_features := dictSet acc.additional_features key value }
        else acc) MorphologyFeatures.empty

/-- `StanzaProcessor.analyze_comprehensive`.  `is_loaded` is the
processor's load flag and `doc` the output of the black-box `self.nlp(text)`
call (`Except.error` when that call raises; the enclosing `try` re-raises
with a prefixed message).  The per-word processing is the embedded source
code. -/
def analyze_comprehensive (is_loaded : Bool) (text : Str)
    (doc : Except Str (List RawSentence)) : Except Str (List Sentence) :=
  if ¬ is_loaded then
    Except.error (("Stanza model not loaded. Call load_model() first.").data)
  else if text = [] ∨ pyStrip text = [] then Except.ok []
  else
    match doc with
    | Except.error e =>
        Except.error (("Stanza comprehensive analysis failed: ").data ++ e)
    | Except.ok sentences =>
        Except.ok (sentences.map (fun sentence =>
          { text := sentence.text,
            tokens := sentence.words.map (fun word =>
              let pos2 := get_character_positions text word.text word.id
              { text := word.text,
                startChar := pos2.1,
                endChar := pos2.2,
                pos := word.upos,
                lemma_ := word.lemma_,
                morphology := extract_morphology word.feats,
                dependency :=
                  { relation := word.deprel,
                    headTokenIndex := if word.head > 0 then word.head - 1 else 0 } }) }))

/-! ### `processors/language_tool_processor.py` -/

/-- One (black-box) LanguageTool match: the attributes `check_text`
reads.  `ruleId = none` models a match object without a `ruleId`
attribute (`hasattr` fails). -/
structure LTMatch where
  message : Str
  offset : Int
  errorLength : Int
  replacements : List Str
  ruleId : Option Str
  deriving DecidableEq, Repr

/-- One step of `re.sub(r'(\d+)\s+\1', r'\1', ...)`: try to match the
pattern at the head of `s`.  The first group `(\d+)` is greedy, and a
shorter capture would leave a digit where `\s+` must match, so only the
full maximal digit run can succeed; likewise `\s+` must consume the whole
whitespace run because the backreference starts with a digit.  Returns
the replacement text (the captured run) and the rest of the string after
the match. -/
def ltMatchAt (s : Str) : Option (Str × Str) :=
  if s.takeWhile Char.isDigit = [] then none
  else if (s.dropWhile Char.isDigit).takeWhile pyIsSpace = [] then none
  else if (s.takeWhile Char.isDigit).isPrefixOf ((s.dropWhile Char.isDigit).dropWhile pyIsSpace)
  then some (s.takeWhile Char.isDigit,
        ((s.dropWhile Char.isDigit).dropWhile pyIsSpace).drop (s.takeWhile Char.isDigit).length)
  else none

theorem ltMatchAt_length (s d r : Str) (h : ltMatchAt s = some (d, r)) :
    r.length < s.length := by
  unfold ltMatchAt at h
  split_ifs at h with h1 h2 h3
  · rw [Option.some_inj, Prod.mk.injEq] at h
    obtain ⟨hd, hr⟩ := h
    have hs : (s.takeWhile Char.isDigit).length + (s.dropWhile Char.isDigit).length
        = s.length := by
      have h0 := congrArg List.length (List.takeWhile_append_dropWhile (p := Char.isDigit) (l := s))
      rw [List.length_append] at h0
      exact h0
    have hs2 : ((s.dropWhile Char.isDigit).takeWhile pyIsSpace).length +
        ((s.dropWhile Char.isDigit).dropWhile pyIsSpace).length
        = (s.dropWhile Char.isDigit).length := by
      have h0 := congrArg List.length
        (List.takeWhile_append_dropWhile (p := pyIsSpace) (l := s.dropWhile Char.isDigit))
      rw [List.length_append] at h0
      exact h0
    have hd1 : 1 ≤ (s.takeWhile Char.isDigit).length := List.length_pos.mpr h1
    have hw1 : 1 ≤ ((s.dropWhile Char.isDigit).takeWhile pyIsSpace).length :=
      List.length_pos.mpr h2
    have hrlen : r.length ≤ ((s.dropWhile Char.isDigit).dropWhile pyIsSpace).length := by
      rw [← hr]
      exact (List.length_drop _ _) ▸ Nat.sub_le _ _
    omega

/-- `LanguageToolProcessor.__preprocess_text_for_languagetool`:
`re.sub(r'(\d+)\s+\1', r'\1', text)`, scanning left to right over
non-overlapping matches. -/
def ltSub : Str → Str
  | [] => []
  | c :: rest =>
    match hm : ltMatchAt (c :: rest) with
    | some (d, r) => d ++ ltSub r
    | none => c :: ltSub rest
termination_by s => s.length
decreasing_by
  · exact ltMatchAt_length _ _ _ hm
  · simp

/-- `LanguageToolProcessor.__extract_error_info`: build a `GrammarError`
from a match, dropping it (`None`) when the character positions are
invalid for the checked text. -/
def extract_error_info (m : LTMatch) (text : Str) : Option GrammarError :=
  let start_char : Int := m.offset
  let end_char : Int := m.offset + m.errorLength
  let suggestions := m.replacements.take 5
  let rule_id := m.ruleId.getD (("UNKNOWN_RULE").data)
  if start_char < 0 ∨ end_char > (text.length : Int) ∨ start_char ≥ end_char then none
  else
    some { message := m.message, startChar := start_char, endChar := end_char,
           suggestions := suggestions, ruleId := rule_id }

/-- `LanguageToolProcessor.__adjust_error_positions`: currently the
identity ("return the error as-is since preprocessing is minimal"). -/
def adjust_error_positions (error : GrammarError) (_original_text _processed_text : Str) :
    Option GrammarError :=
  some error

/-- The character class `[a-zA-ZäöüßÄÖÜ]` of the fallback word regex. -/
def fallbackLetter (c : Char) : Bool :=
  ('a' ≤ c && c ≤ 'z') || ('A' ≤ c && c ≤ 'Z') ||
    c = 'ä' || c = 'ö' || c = 'ü' || c = 'ß' || c = 'Ä' || c = 'Ö' || c = 'Ü'

/-- The regex word class `\w` (for the `\b` boundaries): ASCII
alphanumerics, underscore, and the non-ASCII letters occurring in the
fallback class.  (Full Unicode `\w` is wider, but only these characters
appear in the embedded code's patterns.) -/
def isWordChar (c : Char) : Bool := c.isAlphanum || c = '_' || fallbackLetter c

/-- Select, from the maximal runs of constant `fallbackLetter`-membership,
those runs that match `\b[a-zA-ZäöüßÄÖÜ]+\b`: a run of class characters
whose neighbours (if any) are not word characters.  (No proper sub-run of
a maximal run can match, because its neighbour inside the run is a word
character.) -/
def pickWords : Option Char → List Str → List Str
  | _, [] => []
  | prev, run :: rest =>
    let isClassRun := match run with | [] => false | c :: _ => fallbackLetter c
    let okLeft := match prev with | none => true | some p => !(isWordChar p)
    let okRight :=
      match rest with
      | [] => true
      | r :: _ => match r with | [] => true | n :: _ => !(isWordChar n)
    (if isClassRun && okLeft && okRight then [run] else []) ++
      pickWords (some (run.getLastD ' ')) rest

/-- `re.findall(r'\b[a-zA-ZäöüßÄÖÜ]+\b', text)`. -/
def extractFallbackWords (text : Str) : List Str :=
  pickWords none (text.splitBy (fun a b => fallbackLetter a == fallbackLetter b))

/-- `LanguageToolProcessor.__fallback_spell_check`: check each extracted
word individually.  `wordCheck` is the black-box `self.tool.check(word)`;
a raising word check is skipped (`continue`). -/
def fallback_spell_check (text : Str) (wordCheck : Str → Except Str (List LTMatch)) :
    List GrammarError :=
  (extractFallbackWords text).foldl (fun errors word =>
    match wordCheck word with
    | Except.error _ => errors
    | Except.ok ms =>
        errors ++ ms.foldr (fun m acc =>
          match listFind text word with
          | some word_start =>
              { message := m.message,
                startChar := (word_start : Int),
                endChar := (word_start : Int) + (word.length : Int),
                suggestions := m.replacements.take 5,
                ruleId := m.ruleId.getD (("SPELLING_RULE").data) } :: acc
          | none => acc) []) []

/-- `LanguageToolProcessor.check_text`.  `checkResult` is the black-box
`self.tool.check(processed_text)` outcome; `wordCheck` the per-word
checks of the fallback.  When the main check raises, the fallback runs on
the *original* text; the fallback itself never raises, so the method's
final `return []` branch is unreachable. -/
def check_text (is_loaded : Bool) (text : Str)
    (checkResult : Except Str (List LTMatch))
    (wordCheck : Str → Except Str (List LTMatch)) : Except Str (List GrammarError) :=
  if ¬ is_loaded then
    Except.error (("LanguageTool not loaded. Call load_model() first.").data)
  else if text = [] ∨ pyStrip text = [] then Except.ok []
  else
    let processed_text := ltSub text
    match checkResult with
    | Except.ok ms =>
        Except.ok (ms.foldr (fun m acc =>
          match extract_error_info m processed_text with
          | some error =>
              match adjust_error_positions error text processed_text with
              | some error2 => error2 :: acc
              | none => acc
          | none => acc) [])
    | Except.error _ => Except.ok (fallback_spell_check text wordCheck)

/-! ### `pipeline.py` -/

/-- The per-language Stanza processor handle: the fields of
`StanzaProcessor` that the pipeline observes (`is_loaded` collapses
`self._is_loaded and self.nlp is not None`, which move together). -/
structure StanzaProcessorHandle where
  language : Str
  is_loaded : Bool
  deriving DecidableEq, Repr

/-- The per-language LanguageTool processor handle. -/
structure LanguageToolProcessorHandle where
  language : Str
  is_loaded : Bool
  deriving DecidableEq, Repr

/-- `LanguageAnalysisPipeline.__get_stanza_processor`.  The constructed
processor is stored in `self._stanza_processors` *before* `load_model()`
runs; `loadOk` is the outcome of that (black-box Stanza) load call, which
on success sets the handle's `_is_loaded` in place and on failure raises,
leaving the stored handle unloaded. -/
def get_stanza_processor (reg : List (Str × StanzaProcessorHandle)) (language : Str)
    (loadOk : Bool) : Except Str StanzaProcessorHandle × List (Str × StanzaProcessorHandle) :=
  let short_code := get_stanza_language_code language
  match dictFind? reg short_code with
  | some processor =>
      if processor.is_loaded then (Except.ok processor, reg)
      else if loadOk then
        let p := { processor with is_loaded := true }
        (Except.ok p, dictSet reg short_code p)
      else
        (Except.error (("Could not initialize Stanza pipeline for ").data ++ short_code), reg)
  | none =>
      let processor : StanzaProcessorHandle := { language := short_code, is_loaded := false }
      let reg1 := dictSet reg short_code processor
      if loadOk then
        let p := { processor with is_loaded := true }
        (Except.ok p, dictSet reg1 short_code p)
      else
        (Except.error (("Could not initialize Stanza pipeline for ").data ++ short_code), reg1)

/-- `LanguageAnalysisPipeline.__get_language_tool_processor` (same shape,
keyed by `normalize_language_code`). -/
def get_language_tool_processor (reg : List (Str × LanguageToolProcessorHandle))
    (language : Str) (loadOk : Bool) :
    Except Str LanguageToolProcessorHandle × List (Str × LanguageToolProcessorHandle) :=
  let normalized_language := normalize_language_code language
  match dictFind? reg normalized_language with
  | some processor =>
      if processor.is_loaded then (Except.ok processor, reg)
      else if loadOk then
        let p := { processor with is_loaded := true }
        (Except.ok p, dictSet reg normalized_language p)
      else
        (Except.error (("Could not initialize LanguageTool for ").data ++ normalized_language),
         reg)
  | none =>
      let processor : LanguageToolProcessorHandle :=
        { language := normalized_language, is_loaded := false }
      let reg1 := dictSet reg normalized_language processor
      if loadOk then
        let p := { processor with is_loaded := true }
        (Except.ok p, dictSet reg1 normalized_language p)
      else
        (Except.error (("Could not initialize LanguageTool for ").data ++ normalized_language),
         reg1)

/-- `LanguageAnalysisPipeline` state.  The cache stores `model_dump()`
dicts; since pydantic's dump/reconstruct round-trips, the stored value is
modelled as the `AnalysisResult` itself. -/
structure LanguageAnalysisPipeline where
  max_text_length : Nat
  cache : AnalysisCache AnalysisResult
  performance_monitor : PerformanceMonitor
  stanza_processors : List (Str × StanzaProcessorHandle)
  language_tool_processors : List (Str × LanguageToolProcessorHandle)
  is_initialized : Bool
  deriving Repr

/-- The black-box outcomes consumed by one `analyze` call: the
`time.time()` readings, the Stanza and LanguageTool load outcomes, the
Stanza document, and the LanguageTool check outcomes. -/
structure AnalyzeOracle where
  t_start : ℚ
  t_cache_get : ℚ
  stanza_load_ok : Bool
  stanza_doc : Except Str (List RawSentence)
  lt_load_ok : Bool
  lt_check : Except Str (List LTMatch)
  lt_word_check : Str → Except Str (List LTMatch)
  t_cache_set : ℚ
  t_end : ℚ
  t_end2 : ℚ

/-- Result of the ANALYZE stage of `analyze` (pipeline.py lines 195-217):
the two capability blocks with their per-capability `try/except`. -/
structure CapabilityOutcome where
  sentences : List Sentence
  grammar_errors : List GrammarError
  errors : List Str
  stanza_processors : List (Str × StanzaProcessorHandle)
  language_tool_processors : List (Str × LanguageToolProcessorHandle)

/-- The Stanza capability block of `analyze` (its `try/except`): returns
the sentences, the error strings appended to the local `errors` list, and
the updated processor map. -/
def stanza_capability (reg : List (Str × StanzaProcessorHandle)) (req : AnalysisRequest)
    (processed_text : Str) (o : AnalyzeOracle) :
    List Sentence × List Str × List (Str × StanzaProcessorHandle) :=
  if req.include_morphological_analysis || req.include_dependency_parsing then
    match get_stanza_processor reg req.language o.stanza_load_ok with
    | (Except.ok proc, reg') =>
        match analyze_comprehensive proc.is_loaded processed_text o.stanza_doc with
        | Except.ok ss => (ss, [], reg')
        | Except.error e => ([], [("Stanza analysis failed: ").data ++ e], reg')
    | (Except.error e, reg') => ([], [("Stanza analysis failed: ").data ++ e], reg')
  else ([], [], reg)

/-- The LanguageTool capability block of `analyze` (its `try/except`). -/
def lt_capability (reg : List (Str × LanguageToolProcessorHandle)) (req : AnalysisRequest)
    (processed_text : Str) (o : AnalyzeOracle) :
    List GrammarError × List Str × List (Str × LanguageToolProcessorHandle) :=
  if req.include_grammar_check then
    match get_language_tool_processor reg req.language o.lt_load_ok with
    | (Except.ok proc, reg') =>
        match check_text proc.is_loaded processed_text o.lt_check o.lt_word_check with
        | Except.ok ges => (ges, [], reg')
        | Except.error e => ([], [("LanguageTool analysis failed: ").data ++ e], reg')
    | (Except.error e, reg') => ([], [("LanguageTool analysis failed: ").data ++ e], reg')
  else ([], [], reg)

/-- The two capability blocks of `analyze`: each requested capability is
invoked in its own `try`, a failure is appended to the local `errors`
list, and the sibling capability still runs. -/
def run_capabilities (p : LanguageAnalysisPipeline) (req : AnalysisRequest)
    (processed_text : Str) (o : AnalyzeOracle) : CapabilityOutcome :=
  let stanzaStep := stanza_capability p.stanza_processors req processed_text o
  let ltStep := lt_capability p.language_tool_processors req processed_text o
  { sentences := stanzaStep.1,
    grammar_errors := ltStep.1,
    errors := stanzaStep.2.1 ++ ltStep.2.1,
    stanza_processors := stanzaStep.2.2,
    language_tool_processors := ltStep.2.2 }

/-- `LanguageAnalysisPipeline.analyze`.

The outer `except` branch calls `end_request(..., success=False, ...)`,
which raises `UnboundLocalError` (see `PerformanceMonitor.end_request`);
inside an `except` block that new exception supersedes the original one,
so it is what propagates out of `analyze`.  When the line-230 call itself
raises (capability errors, `success=False`), the `except` block runs
`end_request` once more before the exception escapes, so counters are
bumped twice and the shared `RequestMetrics` object is appended twice.
The dead `Except.ok` arms mirror the `raise` statements / the
`return result` line. -/
def analyze (p : LanguageAnalysisPipeline) (req : AnalysisRequest) (o : AnalyzeOracle) :
    Except Str AnalysisResult × LanguageAnalysisPipeline :=
  if ¬ p.is_initialized then
    (Except.error (("Pipeline not initialized. Call initialize() first.").data), p)
  else
    let request_metrics := start_request req.text o.t_start
    let got := p.cache.get req.text req.language o.t_cache_get
    let p1 := { p with cache := got.2 }
    match got.1 with
    | some cached_result =>
        -- cache hit (`model_dump()` dicts are non-empty, hence truthy)
        let rm := { request_metrics with cache_hit := true }
        let monOut := p1.performance_monitor.end_request rm true none true o.t_end
        (Except.ok cached_result, { p1 with performance_monitor := monOut.1 })
    | none =>
        match preprocess p1.max_text_length req.text with
        | Except.error e =>
            let monOut := p1.performance_monitor.end_request request_metrics false
              (some e) false o.t_end
            let p2 := { p1 with performance_monitor := monOut.1 }
            match monOut.2 with
            | Except.ok _ => (Except.error e, p2)
            | Except.error ub => (Except.error ub, p2)
        | Except.ok processed_text =>
            if ¬ validate_text_valid processed_text then
              let e :=
                ("Text validation failed: Text is empty or contains only whitespace").data
              let monOut := p1.performance_monitor.end_request request_metrics false
                (some e) false o.t_end
              let p2 := { p1 with performance_monitor := monOut.1 }
              match monOut.2 with
              | Except.ok _ => (Except.error e, p2)
              | Except.error ub => (Except.error ub, p2)
            else
              let cap := run_capabilities p1 req processed_text o
              let result : AnalysisResult :=
                { originalText := processed_text, language := req.language,
                  sentences := cap.sentences, errors := cap.grammar_errors }
              let p2 := { p1 with stanza_processors := cap.stanza_processors,
                                  language_tool_processors := cap.language_tool_processors }
              let p3 := { p2 with cache := p2.cache.set req.text result req.language
                                             o.t_cache_set }
              let monOut := p3.performance_monitor.end_request request_metrics
                cap.errors.isEmpty none false o.t_end
              match monOut.2 with
              | Except.ok _ =>
                  -- `return result`
                  (Except.ok result, { p3 with performance_monitor := monOut.1 })
              | Except.error ub =>
                  -- The raise from the line-230 end_request call is caught
                  -- by the outer `except` (line 234), which calls
                  -- end_request a second time (line 237) on the SAME
                  -- RequestMetrics object with error_message=str(e); that
                  -- call updates every aggregate again, appends the object
                  -- a second time, and raises UnboundLocalError itself,
                  -- which then propagates (the `raise` statement that would
                  -- re-raise the first exception is never reached).
                  let monOut2 := monOut.1.end_request request_metrics false
                    (some ub) false o.t_end2
                  -- In Python both history appends reference ONE object
                  -- mutated in place, so after the second call both new
                  -- slots hold the second finalization's field values.
                  let rm2 := finalizeRequestMetrics request_metrics false
                    (some ub) false o.t_end2
                  let mon2 := { monOut2.1 with
                      request_history :=
                        dequeAppend p3.performance_monitor.max_history
                          (dequeAppend p3.performance_monitor.max_history
                            p3.performance_monitor.request_history rm2) rm2 }
                  let p4 := { p3 with performance_monitor := mon2 }
                  match monOut2.2 with
                  | Except.ok _ => (Except.error ub, p4)
                  | Except.error ub2 => (Except.error ub2, p4)

/-! ### Supporting lemmas -/

theorem dictKeys_dictSet_present {κ β : Type} [DecidableEq κ]
    (m : List (κ × β)) (k : κ) (v : β) (h : (dictFind? m k).isSome) :
    dictKeys (dictSet m k v) = dictKeys m := by
  induction m with
  | nil => simp [dictFind?] at h
  | cons p rest ih =>
    by_cases hp : p.1 = k
    · simp [dictSet, hp]
    · simp only [dictFind?, hp, if_false] at h
      simp [dictSet, hp, ih h]

theorem dictKeys_dictSet_absent {κ β : Type} [DecidableEq κ]
    (m : List (κ × β)) (k : κ) (v : β) (h : dictFind? m k = none) :
    dictKeys (dictSet m k v) = dictKeys m ++ [k] := by
  rw [dictSet_absent m k v h]
  simp [dictKeys]

theorem dictKeys_dictSet_nodup {κ β : Type} [DecidableEq κ]
    (m : List (κ × β)) (k : κ) (v : β) (h : (dictKeys m).Nodup) :
    (dictKeys (dictSet m k v)).Nodup := by
  rcases ho : dictFind? m k with _ | w
  · rw [dictKeys_dictSet_absent m k v ho]
    rw [List.nodup_append]
    refine ⟨h, List.nodup_singleton k, ?_⟩
    intro a ha hb
    rw [List.mem_singleton] at hb
    subst hb
    have := dictFind?_isSome_of_mem m a ha
    rw [ho] at this
    simp at this
  · rw [dictKeys_dictSet_present m k v (by rw [ho]; rfl)]
    exact h

theorem dictKeys_dictDel_nodup {κ β : Type} [DecidableEq κ]
    (m : List (κ × β)) (k : κ) (h : (dictKeys m).Nodup) :
    (dictKeys (dictDel m k)).Nodup :=
  (dictKeys_dictDel_sublist m k).nodup h

theorem dictFind?_append_left_none {κ β : Type} [DecidableEq κ]
    (a b : List (κ × β)) (k : κ) (h : dictFind? a k = none) :
    dictFind? (a ++ b) k = dictFind? b k := by
  induction a with
  | nil => simp
  | cons p rest ih =>
    by_cases hp : p.1 = k
    · simp [dictFind?, hp] at h
    · simp only [dictFind?, hp, if_false] at h
      simp only [List.cons_append, dictFind?, hp, if_false]
      exact ih h

theorem dictFind?_append_left_some {κ β : Type} [DecidableEq κ]
    (a b : List (κ × β)) (k : κ) (v : β) (h : dictFind? a k = some v) :
    dictFind? (a ++ b) k = some v := by
  induction a with
  | nil => simp [dictFind?] at h
  | cons p rest ih =>
    by_cases hp : p.1 = k
    · simp only [dictFind?, hp, if_true] at h
      simp only [List.cons_append, dictFind?, hp, if_true]
      exact h
    · simp only [dictFind?, hp, if_false] at h
      simp only [List.cons_append, dictFind?, hp, if_false]
      exact ih h

/-- The fold of `_evict_oldest` returns either the accumulator or a
key/time pair taken from the list, its time is minimal, and ties keep the
earlier candidate. -/
theorem evictAux_spec {α : Type} (l : List (Str × CacheEntry α)) (bk : Str) (bt : ℚ) :
    ((evictAux (α := α) (bk, bt) l) = (bk, bt)
      ∨ ∃ e : CacheEntry α, ((evictAux (α := α) (bk, bt) l).1, e) ∈ l
          ∧ e.last_accessed = (evictAux (α := α) (bk, bt) l).2)
    ∧ (evictAux (α := α) (bk, bt) l).2 ≤ bt
    ∧ ∀ p ∈ l, (evictAux (α := α) (bk, bt) l).2 ≤ p.2.last_accessed := by
  induction l generalizing bk bt with
  | nil => simp [evictAux]
  | cons q rest ih =>
    by_cases hq : q.2.last_accessed < bt
    · have hrec := ih q.1 q.2.last_accessed
      have he : evictAux (α := α) (bk, bt) (q :: rest)
          = evictAux (α := α) (q.1, q.2.last_accessed) rest := by
        simp [evictAux, hq]
      rw [he]
      refine ⟨?_, ?_, ?_⟩
      · rcases hrec.1 with h | ⟨e, he1, he2⟩
        · right
          exact ⟨q.2, by rw [h]; exact List.mem_cons_self _ _, by rw [h]⟩
        · right
          exact ⟨e, List.mem_cons_of_mem _ he1, he2⟩
      · exact le_of_lt (lt_of_le_of_lt hrec.2.1 hq)
      · intro p hp
        rcases List.mem_cons.mp hp with h | h
        · subst h
          exact hrec.2.1
        · exact hrec.2.2 p h
    · have hrec := ih bk bt
      have he : evictAux (α := α) (bk, bt) (q :: rest)
          = evictAux (α := α) (bk, bt) rest := by
        simp [evictAux, hq]
      rw [he]
      refine ⟨?_, hrec.2.1, ?_⟩
      · rcases hrec.1 with h | ⟨e, he1, he2⟩
        · exact Or.inl h
        · exact Or.inr ⟨e, List.mem_cons_of_mem _ he1, he2⟩
      · intro p hp
        rcases List.mem_cons.mp hp with h | h
        · subst h
          exact le_trans hrec.2.1 (not_lt.mp hq)
        · exact hrec.2.2 p h

/-- When the accumulator's time is a strict lower bound, the fold keeps it. -/
theorem evictAux_of_lt {α : Type} (l : List (Str × CacheEntry α)) (bk : Str) (bt : ℚ)
    (h : ∀ p ∈ l, ¬ p.2.last_accessed < bt) :
    evictAux (α := α) (bk, bt) l = (bk, bt) := by
  induction l with
  | nil => rfl
  | cons q rest ih =>
    have hq := h q (List.mem_cons_self _ _)
    simp only [evictAux, hq, if_false]
    exact ih (fun p hp => h p (List.mem_cons_of_mem _ hp))

/-- `_evict_oldest`'s chosen key is in the cache and its entry's
`last_accessed` is minimal. -/
theorem evictKey_spec {α : Type} (m : List (Str × CacheEntry α)) (k : Str)
    (h : evictKey m = some k) :
    ∃ e : CacheEntry α, (k, e) ∈ m ∧ ∀ p ∈ m, e.last_accessed ≤ p.2.last_accessed := by
  match m with
  | [] => simp [evictKey] at h
  | (k0, e0) :: rest =>
    have hspec := evictAux_spec rest k0 e0.last_accessed
    simp only [evictKey, Option.some_inj] at h
    have hmin : ∀ p ∈ (k0, e0) :: rest,
        (evictAux (α := α) (k0, e0.last_accessed) rest).2 ≤ p.2.last_accessed := by
      intro p hp
      rcases List.mem_cons.mp hp with hh | hh
      · rw [hh]
        exact hspec.2.1
      · exact hspec.2.2 p hh
    rcases hspec.1 with heq | ⟨e, he1, he2⟩
    · refine ⟨e0, ?_, ?_⟩
      · rw [← h, heq]
        exact List.mem_cons_self _ _
      · intro p hp
        have hb := hmin p hp
        rw [heq] at hb
        exact hb
    · refine ⟨e, ?_, ?_⟩
      · rw [← h]
        exact List.mem_cons_of_mem _ he1
      · intro p hp
        rw [he2]
        exact hmin p hp

theorem evict_oldest_max_size {α : Type} (c : AnalysisCache α) :
    c.evict_oldest.max_size = c.max_size := by
  unfold AnalysisCache.evict_oldest
  rcases hk : evictKey c.cache with _ | k <;> simp [hk]

theorem evict_oldest_ttl {α : Type} (c : AnalysisCache α) :
    c.evict_oldest.ttl_seconds = c.ttl_seconds := by
  unfold AnalysisCache.evict_oldest
  rcases hk : evictKey c.cache with _ | k <;> simp [hk]

theorem set_max_size {α : Type} (c : AnalysisCache α) (text : Str) (r : α)
    (language : Str) (now : ℚ) :
    (c.set text r language now).max_size = c.max_size := by
  unfold AnalysisCache.set
  by_cases h : c.cache.length ≥ c.max_size <;> simp [h, evict_oldest_max_size]

theorem set_ttl {α : Type} (c : AnalysisCache α) (text : Str) (r : α)
    (language : Str) (now : ℚ) :
    (c.set text r language now).ttl_seconds = c.ttl_seconds := by
  unfold AnalysisCache.set
  by_cases h : c.cache.length ≥ c.max_size <;> simp [h, evict_oldest_ttl]

theorem set_cache_nodup {α : Type} (c : AnalysisCache α) (text : Str) (r : α)
    (language : Str) (now : ℚ) (h : (dictKeys c.cache).Nodup) :
    (dictKeys (c.set text r language now).cache).Nodup := by
  unfold AnalysisCache.set AnalysisCache.evict_oldest
  by_cases hlen : c.cache.length ≥ c.max_size
  · rcases hk : evictKey c.cache with _ | k
    · simp only [hlen, if_true, hk]
      exact dictKeys_dictSet_nodup _ _ _ h
    · simp only [hlen, if_true, hk]
      exact dictKeys_dictSet_nodup _ _ _ (dictKeys_dictDel_nodup _ _ h)
  · simp only [hlen, if_false]
    exact dictKeys_dictSet_nodup _ _ _ h

theorem set_find_self {α : Type} (c : AnalysisCache α) (text : Str) (r : α)
    (language : Str) (now : ℚ) :
    dictFind? (c.set text r language now).cache (generate_key text language)
      = some { result := r, timestamp := now, access_count := 1, last_accessed := now } := by
  unfold AnalysisCache.set
  exact dictFind?_dictSet_self _ _ _

/-- C4: after `set`, a `get` for the same text/language within
`ttl_seconds` of insertion returns the stored result; a `get` strictly
more than `ttl_seconds` later returns `None` and physically removes the
entry from the map.  (`hnd` is the Python `dict` invariant that keys are
unique.) -/
theorem C4_cache_set_get_ttl (α : Type) (c : AnalysisCache α) (text language : Str)
    (r : α) (t0 t1 : ℚ) (hnd : (dictKeys c.cache).Nodup) :
    (t1 - t0 ≤ c.ttl_seconds →
        ((c.set text r language t0).get text language t1).1 = some r)
  ∧ (t1 - t0 > c.ttl_seconds →
        ((c.set text r language t0).get text language t1).1 = none
      ∧ dictFind? ((c.set text r language t0).get text language t1).2.cache
          (generate_key text language) = none) := by
  have hfind := set_find_self c text r language t0
  have httl := set_ttl c text r language t0
  have hnd' := set_cache_nodup c text r language t0 hnd
  constructor
  · intro hle
    have hcond : ¬ (t1 - t0 > (c.set text r language t0).ttl_seconds) := by
      rw [httl]
      exact not_lt.mpr hle
    unfold AnalysisCache.get
    simp only [hfind]
    simp [hcond]
  · intro hgt
    have hcond : t1 - t0 > (c.set text r language t0).ttl_seconds := by
      rw [httl]
      exact hgt
    constructor
    · unfold AnalysisCache.get
      simp only [hfind]
      simp [hcond]
    · unfold AnalysisCache.get
      simp only [hfind]
      simp only [hcond, if_true]
      exact dictFind?_dictDel_self _ _ hnd'

/-- C4 witness: a concrete set-then-get inside and outside the TTL. -/
theorem C4_cache_set_get_ttl_witness :
    (((AnalysisCache.init Nat 1000 3600).set (("hallo").data) 7 (("de").data) 0).get
        (("hallo").data) (("de").data) 10).1 = some 7
  ∧ (((AnalysisCache.init Nat 1000 3600).set (("hallo").data) 7 (("de").data) 0).get
        (("hallo").data) (("de").data) 4000).1 = none := by
  constructor
  · exact (C4_cache_set_get_ttl Nat (AnalysisCache.init Nat 1000 3600)
      (("hallo").data) (("de").data) 7 0 10 (by decide)).1 (by norm_num [AnalysisCache.init])
  · exact ((C4_cache_set_get_ttl Nat (AnalysisCache.init Nat 1000 3600)
      (("hallo").data) (("de").data) 7 0 4000 (by decide)).2
        (by norm_num [AnalysisCache.init])).1

theorem set_at_capacity_shape {α : Type} (c : AnalysisCache α) (text : Str) (r : α)
    (language : Str) (now : ℚ) (ek : Str)
    (hlen : c.cache.length ≥ c.max_size) (hev : evictKey c.cache = some ek) :
    (c.set text r language now).cache
      = dictSet (dictDel c.cache ek) (generate_key text language)
          { result := r, timestamp := now, access_count := 1, last_accessed := now } := by
  unfold AnalysisCache.set AnalysisCache.evict_oldest
  simp [hlen, hev]

/-- C10: when `set` is called at capacity with a key that is already
cached, the least-recently-accessed entry is evicted all the same, so if
that entry is not the overwritten one the cache shrinks to
`max_size - 1` entries and an unrelated live entry is gone. -/
theorem C10_set_at_capacity_existing_key (α : Type) (c : AnalysisCache α)
    (text language : Str) (r : α) (now : ℚ) (ek : Str)
    (hnd : (dictKeys c.cache).Nodup)
    (hlen : c.cache.length = c.max_size)
    (hkey : (dictFind? c.cache (generate_key text language)).isSome)
    (hev : evictKey c.cache = some ek)
    (hne : ek ≠ generate_key text language) :
    (c.set text r language now).cache.length + 1 = c.max_size
  ∧ dictFind? (c.set text r language now).cache ek = none
  ∧ (∃ ee : CacheEntry α, dictFind? c.cache ek = some ee
        ∧ ∀ p ∈ c.cache, ee.last_accessed ≤ p.2.last_accessed)
  ∧ dictFind? (c.set text r language now).cache (generate_key text language)
      = some { result := r, timestamp := now, access_count := 1, last_accessed := now } := by
  obtain ⟨ee, hmem, hmin⟩ := evictKey_spec c.cache ek hev
  have hekfind : dictFind? c.cache ek = some ee := dictFind?_of_mem_nodup _ _ _ hmem hnd
  have hshape := set_at_capacity_shape c text r language now ek hlen.ge hev
  have hkeydel : dictFind? (dictDel c.cache ek) (generate_key text language)
      = dictFind? c.cache (generate_key text language) :=
    dictFind?_dictDel_ne _ _ _ hne
  refine ⟨?_, ?_, ⟨ee, hekfind, hmin⟩, ?_⟩
  · rw [hshape, dictSet_length_present _ _ _ (by rw [hkeydel]; exact hkey)]
    rw [dictDel_length_present _ _ (by rw [hekfind]; rfl)]
    exact hlen
  · rw [hshape, dictFind?_dictSet_ne _ _ _ _ hne.symm]
    exact dictFind?_dictDel_self _ _ hnd
  · rw [hshape]
    exact dictFind?_dictSet_self _ _ _

/-- C10 witness: a two-entry cache at capacity; overwriting the more
recently accessed key evicts the other entry and leaves one entry. -/
theorem C10_set_at_capacity_existing_key_witness :
    (AnalysisCache.set
        { max_size := 2, ttl_seconds := 3600,
          cache := [(generate_key (("a").data) (("de").data),
                      { result := 1, timestamp := 0, access_count := 1, last_accessed := 0 }),
                    (generate_key (("b").data) (("de").data),
                      { result := 2, timestamp := 5, access_count := 1, last_accessed := 5 })],
          hits := 0, misses := 0 }
        (("b").data) 9 (("de").data) 10).cache.length + 1 = 2
  ∧ dictFind? (AnalysisCache.set
        { max_size := 2, ttl_seconds := 3600,
          cache := [(generate_key (("a").data) (("de").data),
                      { result := 1, timestamp := 0, access_count := 1, last_accessed := 0 }),
                    (generate_key (("b").data) (("de").data),
                      { result := 2, timestamp := 5, access_count := 1, last_accessed := 5 })],
          hits := 0, misses := 0 }
        (("b").data) 9 (("de").data) 10).cache
      (generate_key (("a").data) (("de").data)) = none := by
  have h := C10_set_at_capacity_existing_key Nat
    { max_size := 2, ttl_seconds := 3600,
      cache := [(generate_key (("a").data) (("de").data),
                  { result := 1, timestamp := 0, access_count := 1, last_accessed := 0 }),
                (generate_key (("b").data) (("de").data),
                  { result := 2, timestamp := 5, access_count := 1, last_accessed := 5 })],
      hits := 0, misses := 0 }
    (("b").data) (("de").data) 9 10 (generate_key (("a").data) (("de").data))
    (by decide) (by decide) (by decide) (by decide) (by decide)
  exact ⟨h.1, h.2.1⟩

/-- C9: `preprocess` fails exactly on empty / whitespace-only input (the
non-string case is outside the typed embedding); otherwise it returns the
stripped text, truncated to exactly `max_length` characters when the
stripped text is longer, and unchanged (beyond stripping) otherwise. -/
theorem C9_preprocess_contract (max_length : Nat) (text : Str) :
    ((∃ e, preprocess max_length text = Except.error e) ↔ pyStrip text = [])
  ∧ (∀ out, preprocess max_length text = Except.ok out →
      ((pyStrip text).length > max_length →
          out = (pyStrip text).take max_length ∧ out.length = max_length)
      ∧ ((pyStrip text).length ≤ max_length → out = pyStrip text)) := by
  unfold preprocess
  by_cases h0 : text = []
  · subst h0
    simp [pyStrip]
  · simp only [h0, if_false]
    by_cases h1 : pyStrip text = []
    · simp [h1]
    · simp only [h1, if_false]
      by_cases h2 : (pyStrip text).length > max_length
      · simp only [h2, if_true]
        constructor
        · simp [h1]
        · intro out hout
          rw [Except.ok.injEq] at hout
          constructor
          · intro _
            refine ⟨hout.symm, ?_⟩
            rw [← hout, List.length_take]
            exact Nat.min_eq_left (Nat.le_of_lt h2)
          · intro hle
            omega
      · simp only [h2, if_false]
        constructor
        · simp [h1]
        · intro out hout
          rw [Except.ok.injEq] at hout
          constructor
          · intro hgt
            exact hgt.elim
          · intro _
            exact hout.symm

/-- C9 witness: whitespace-only input is rejected; a long input is
stripped and truncated to exactly 5 characters. -/
theorem C9_preprocess_contract_witness :
    (∃ e, preprocess 5 (("   ").data) = Except.error e)
  ∧ (pyStrip (("  hello world  ").data)).length > 5
  ∧ (∀ out, preprocess 5 (("  hello world  ").data) = Except.ok out →
      out = (pyStrip (("  hello world  ").data)).take 5 ∧ out.length = 5) := by
  refine ⟨(C9_preprocess_contract 5 (("   ").data)).1.mpr (by decide), by decide, ?_⟩
  intro out hout
  exact ((C9_preprocess_contract 5 (("  hello world  ").data)).2 out hout).1 (by decide)

/-- C2: `end_request` with `success=False` does update every aggregate --
it increments the error counter, bumps the matching cache hit/miss
counter, and appends the finalized record to the bounded history ring --
but it does NOT return normally: the final `logger.debug` f-string reads
the local `processing_time`, which is only assigned in the success
branch, so the call raises `UnboundLocalError`.  This contradicts the
claim (and the spec's "metrics still recorded with success=false"
behaviour, which works only up to the raise). -/
theorem C2_end_request_failure_raises (mon : PerformanceMonitor) (rm : RequestMetrics)
    (error_message : Option Str) (cache_hit : Bool) (now : ℚ) :
    (mon.end_request rm false error_message cache_hit now).2
        = Except.error (("UnboundLocalError: local variable referenced before assignment").data)
  ∧ (mon.end_request rm false error_message cache_hit now).1.metrics.error_count
        = mon.metrics.error_count + 1
  ∧ (mon.end_request rm false error_message cache_hit now).1.metrics.cache_hits
        = mon.metrics.cache_hits + (if cache_hit then 1 else 0)
  ∧ (mon.end_request rm false error_message cache_hit now).1.metrics.cache_misses
        = mon.metrics.cache_misses + (if cache_hit then 0 else 1)
  ∧ (mon.end_request rm false error_message cache_hit now).1.request_history
        = dequeAppend mon.max_history mon.request_history
            { rm with end_time := some now,
                      processing_time_ms := some ((now - rm.start_time) * 1000),
                      success := false, error_message := error_message,
                      cache_hit := cache_hit } := by
  unfold PerformanceMonitor.end_request
  by_cases h : cache_hit <;> simp [h, finalizeRequestMetrics]

/-- A second registry call for a language whose cached handle is present
but not loaded attempts the load again. -/
theorem get_stanza_processor_retry (reg : List (Str × StanzaProcessorHandle)) (language : Str)
    (h : dictFind? reg (get_stanza_language_code language)
        = some { language := get_stanza_language_code language, is_loaded := false }) :
    (get_stanza_processor reg language true).1
      = Except.ok { language := get_stanza_language_code language, is_loaded := true } := by
  unfold get_stanza_processor
  simp [h]

/-- Same retry behaviour for the LanguageTool registry. -/
theorem get_language_tool_processor_retry (reg : List (Str × LanguageToolProcessorHandle))
    (language : Str)
    (h : dictFind? reg (normalize_language_code language)
        = some { language := normalize_language_code language, is_loaded := false }) :
    (get_language_tool_processor reg language true).1
      = Except.ok { language := normalize_language_code language, is_loaded := true } := by
  unfold get_language_tool_processor
  simp [h]

/-- C6 counterexample: a failed Stanza load propagates the error, but the
processor map is NOT unchanged -- the registry keeps the constructed,
not-loaded handle (the Python code stores the processor in
`self._stanza_processors` before calling `load_model()`). -/
theorem C6_counterexample :
    (get_stanza_processor [] (("de").data) false).1
        = Except.error (("Could not initialize Stanza pipeline for de").data)
  ∧ (get_stanza_processor [] (("de").data) false).2
        = [((("de").data), { language := (("de").data), is_loaded := false })]
  ∧ (get_stanza_processor [] (("de").data) false).2 ≠ ([] :
        List (Str × StanzaProcessorHandle)) := by
  refine ⟨rfl, rfl, by decide⟩

/-- C6 amended: on a load failure for a fresh language, the error
propagates and the registry caches the constructed handle marked
not-loaded (the map changes); because the cached handle is unloaded, a
later call for the same language attempts loading again (and succeeds
when the load now succeeds).  Both the Stanza and the LanguageTool
getters behave this way. -/
theorem C6_registry_failed_load_retries (sreg : List (Str × StanzaProcessorHandle))
    (ltreg : List (Str × LanguageToolProcessorHandle)) (language : Str)
    (hs : dictFind? sreg (get_stanza_language_code language) = none)
    (hl : dictFind? ltreg (normalize_language_code language) = none) :
    ((∃ e, (get_stanza_processor sreg language false).1 = Except.error e)
     ∧ (get_stanza_processor sreg language false).2
         = dictSet sreg (get_stanza_language_code language)
             { language := get_stanza_language_code language, is_loaded := false }
     ∧ (get_stanza_processor (get_stanza_processor sreg language false).2 language true).1
         = Except.ok { language := get_stanza_language_code language, is_loaded := true })
  ∧ ((∃ e, (get_language_tool_processor ltreg language false).1 = Except.error e)
     ∧ (get_language_tool_processor ltreg language false).2
         = dictSet ltreg (normalize_language_code language)
             { language := normalize_language_code language, is_loaded := false }
     ∧ (get_language_tool_processor (get_language_tool_processor ltreg language false).2
           language true).1
         = Except.ok { language := normalize_language_code language, is_loaded := true }) := by
  constructor
  · have h1 : (get_stanza_processor sreg language false)
        = (Except.error (("Could not initialize Stanza pipeline for ").data
              ++ get_stanza_language_code language),
           dictSet sreg (get_stanza_language_code language)
             { language := get_stanza_language_code language, is_loaded := false }) := by
      unfold get_stanza_processor
      simp [hs]
    have h2 : dictFind? (get_stanza_processor sreg language false).2
        (get_stanza_language_code language)
        = some { language := get_stanza_language_code language, is_loaded := false } := by
      rw [h1]
      exact dictFind?_dictSet_self _ _ _
    exact ⟨⟨_, by rw [h1]⟩, by rw [h1],
      get_stanza_processor_retry _ language h2⟩
  · have h1 : (get_language_tool_processor ltreg language false)
        = (Except.error (("Could not initialize LanguageTool for ").data
              ++ normalize_language_code language),
           dictSet ltreg (normalize_language_code language)
             { language := normalize_language_code language, is_loaded := false }) := by
      unfold get_language_tool_processor
      simp [hl]
    have h2 : dictFind? (get_language_tool_processor ltreg language false).2
        (normalize_language_code language)
        = some { language := normalize_language_code language, is_loaded := false } := by
      rw [h1]
      exact dictFind?_dictSet_self _ _ _
    exact ⟨⟨_, by rw [h1]⟩, by rw [h1],
      get_language_tool_processor_retry _ language h2⟩

/-- C6 witness: concrete failed-then-retried loads for language `de` on
empty registries. -/
theorem C6_registry_failed_load_retries_witness :
    (∃ e, (get_stanza_processor [] (("de").data) false).1 = Except.error e)
  ∧ (get_stanza_processor (get_stanza_processor [] (("de").data) false).2
        (("de").data) true).1
      = Except.ok { language := get_stanza_language_code (("de").data), is_loaded := true } := by
  have h := C6_registry_failed_load_retries [] [] (("de").data) (by decide) (by decide)
  exact ⟨h.1.1, h.1.2.2⟩

/-- The span invariant of the spec: `0 ≤ start < end ≤ length`. -/
def spanValid (textLength : Nat) (startChar endChar : Int) : Prop :=
  0 ≤ startChar ∧ startChar < endChar ∧ endChar ≤ (textLength : Int)

instance (n : Nat) (s e : Int) : Decidable (spanValid n s e) := by
  unfold spanValid
  infer_instance

/-- C3 counterexample: for the text `"a b"` and a Stanza word `"abcdef"`
(id 1) that is absent from the text, `__get_character_positions` falls
back to the token-id estimate and produces the span `(0, 6)` with
`6 > len("a b") = 3`; `analyze_comprehensive` returns the token carrying
that out-of-bounds span instead of dropping it. -/
theorem C3_counterexample :
    (analyze_comprehensive true (("a b").data)
        (Except.ok [{ text := ("a b").data,
                      words := [{ text := ("abcdef").data, id := 1, upos := ("X").data,
                                  lemma_ := ("abcdef").data, feats := none, head := 0,
                                  deprel := ("root").data }] }])).map
        (fun ss => ss.map (fun s => s.tokens.map (fun t => (t.startChar, t.endChar))))
      = Except.ok [[(0, 6)]]
  ∧ ¬ spanValid (("a b").data).length 0 6 := by
  refine ⟨rfl, by decide⟩

/-- C3 amended: the invariant does hold for the grammar-error spans built
by `LanguageToolProcessor.__extract_error_info` -- any match whose span
violates `0 ≤ start < end ≤ len(text)` is dropped (`None`) rather than
returned; the Stanza token spans, however, are not validated (see the
counterexample). -/
theorem C3_extract_error_info_span_valid (m : LTMatch) (text : Str) (err : GrammarError)
    (h : extract_error_info m text = some err) :
    spanValid text.length err.startChar err.endChar := by
  simp only [extract_error_info] at h
  split_ifs at h with hc
  push_neg at hc
  rw [Option.some_inj] at h
  rw [← h]
  exact ⟨hc.1, hc.2.2, hc.2.1⟩

/-- C3 witness: a concrete in-bounds match passes through with its span
intact and valid. -/
theorem C3_extract_error_info_span_valid_witness :
    spanValid ((("abc").data).length) 0 3 := by
  exact C3_extract_error_info_span_valid
    { message := ("m").data, offset := 0, errorLength := 3, replacements := [],
      ruleId := none }
    (("abc").data)
    { message := ("m").data, startChar := 0, endChar := 3, suggestions := [],
      ruleId := ("UNKNOWN_RULE").data }
    (by decide)

/-- A `get` whose key is absent misses and leaves the map unchanged. -/
theorem cache_get_miss {α : Type} (c : AnalysisCache α) (text language : Str) (now : ℚ)
    (h : dictFind? c.cache (generate_key text language) = none) :
    c.get text language now = (none, { c with misses := c.misses + 1 }) := by
  unfold AnalysisCache.get
  simp [h]

/-- A freshly initialized pipeline with the default configuration (the
state after `LanguageAnalysisPipeline(); initialize()`). -/
def freshPipeline : LanguageAnalysisPipeline :=
  { max_text_length := 10000,
    cache := AnalysisCache.init AnalysisResult 1000 3600,
    performance_monitor := PerformanceMonitor.init 1000 0,
    stanza_processors := [],
    language_tool_processors := [],
    is_initialized := true }

/-- A request for `"Hallo Welt"` in German with all capabilities on. -/
def reqBoth : AnalysisRequest :=
  { text := ("Hallo Welt").data, language := ("de").data,
    include_grammar_check := true, include_morphological_analysis := true,
    include_dependency_parsing := true }

/-- A two-word Stanza document for `"Hallo Welt"`. -/
def docHalloWelt : List RawSentence :=
  [{ text := ("Hallo Welt").data,
     words := [{ text := ("Hallo").data, id := 1, upos := ("INTJ").data,
                 lemma_ := ("hallo").data, feats := none, head := 0,
                 deprel := ("root").data },
               { text := ("Welt").data, id := 2, upos := ("NOUN").data,
                 lemma_ := ("welt").data,
                 feats := some (("Case=Nom|Gender=Fem|Number=Sing").data),
                 head := 1, deprel := ("vocative").data }] }]

/-- Oracle: Stanza succeeds, the LanguageTool model load fails. -/
def oracleLtLoadFails : AnalyzeOracle :=
  { t_start := 0, t_cache_get := 0, stanza_load_ok := true,
    stanza_doc := Except.ok docHalloWelt, lt_load_ok := false,
    lt_check := Except.ok [], lt_word_check := fun _ => Except.ok [],
    t_cache_set := 1, t_end := 2, t_end2 := 3 }

/-- C1: with morphology succeeding and the grammar-checker capability
throwing (its load fails), `analyze` does compute the partial result --
the morphological sentences are produced, the internal errors list is
non-empty, and the partial result is even cached -- but the request then
ABORTS with `UnboundLocalError` raised inside
`PerformanceMonitor.end_request` (called with `success=False`), instead
of returning the `AnalysisResult` as the claim and the spec require.
The line-230 raise is caught by the outer `except`, whose own
`end_request` call raises again, so the final monitor state carries TWO
failure records: `request_count = 2`, `error_count = 2`,
`cache_misses = 2`, and the history holds the shared metrics object
twice, both slots showing the second call's `error_message`. -/
theorem C1_partial_failure_crashes_instead_of_returning :
    (analyze freshPipeline reqBoth oracleLtLoadFails).1
        = Except.error (("UnboundLocalError: local variable referenced before assignment").data)
  ∧ (stanza_capability freshPipeline.stanza_processors reqBoth (("Hallo Welt").data)
        oracleLtLoadFails).1.map (fun s => s.tokens.map (fun t => t.text))
      = [[("Hallo").data, ("Welt").data]]
  ∧ (run_capabilities freshPipeline reqBoth (("Hallo Welt").data) oracleLtLoadFails).errors
      = [("LanguageTool analysis failed: Could not initialize LanguageTool for de-DE").data]
  ∧ ((analyze freshPipeline reqBoth oracleLtLoadFails).2.cache.cache.map
        (fun e => e.2.result.sentences.map (fun s => s.tokens.map (fun t => t.text))))
      = [[[("Hallo").data, ("Welt").data]]]
  ∧ (analyze freshPipeline reqBoth oracleLtLoadFails).2.performance_monitor.metrics.error_count
      = 2
  ∧ (analyze freshPipeline reqBoth
        oracleLtLoadFails).2.performance_monitor.metrics.request_count = 2
  ∧ (analyze freshPipeline reqBoth
        oracleLtLoadFails).2.performance_monitor.metrics.cache_misses = 2
  ∧ ((analyze freshPipeline reqBoth
        oracleLtLoadFails).2.performance_monitor.request_history.map
          (fun r => r.error_message))
      = [some (("UnboundLocalError: local variable referenced before assignment").data),
         some (("UnboundLocalError: local variable referenced before assignment").data)] := by
  exact ⟨rfl, rfl, rfl, rfl, rfl, rfl, rfl, rfl⟩


theorem dictHas_set_self {α : Type} (c : AnalysisCache α) (text : Str) (r : α)
    (language : Str) (now : ℚ) :
    dictHas (c.set text r language now).cache (generate_key text language) = true := by
  unfold dictHas
  rw [set_find_self]
  rfl

theorem preprocess_ws_error (m : Nat) (text : Str) (hws : pyStrip text = []) :
    ∃ e, preprocess m text = Except.error e := by
  unfold preprocess
  by_cases h0 : text = [] <;> simp [h0, hws]

/-- Any request that reaches the end of the ANALYZE stage stores its
result in the cache, whether or not `cap.errors` is empty. -/
theorem analyze_creates_cache_entry (p : LanguageAnalysisPipeline) (req : AnalysisRequest)
    (o : AnalyzeOracle) (processed : Str)
    (hinit : p.is_initialized = true)
    (hmiss : dictFind? p.cache.cache (generate_key req.text req.language) = none)
    (hpre : preprocess p.max_text_length req.text = Except.ok processed)
    (hvalid : validate_text_valid processed = true) :
    dictHas (analyze p req o).2.cache.cache (generate_key req.text req.language) = true := by
  unfold analyze
  rw [if_neg (not_not_intro hinit)]
  simp only [cache_get_miss p.cache req.text req.language o.t_cache_get hmiss, hpre]
  rw [if_neg (not_not_intro hvalid)]
  split <;> exact dictHas_set_self _ _ _ _ _

/-- A whitespace-only (or empty) request fails in preprocessing: no cache
entry is written and no processor map is touched. -/
theorem analyze_ws_request_noop (p : LanguageAnalysisPipeline) (req : AnalysisRequest)
    (o : AnalyzeOracle)
    (hinit : p.is_initialized = true)
    (hmiss : dictFind? p.cache.cache (generate_key req.text req.language) = none)
    (hws : pyStrip req.text = []) :
    (analyze p req o).2.cache.cache = p.cache.cache
  ∧ (analyze p req o).2.stanza_processors = p.stanza_processors
  ∧ (analyze p req o).2.language_tool_processors = p.language_tool_processors
  ∧ ∃ e, (analyze p req o).1 = Except.error e := by
  obtain ⟨e, hpe⟩ := preprocess_ws_error p.max_text_length req.text hws
  unfold analyze
  rw [if_neg (not_not_intro hinit)]
  simp only [cache_get_miss p.cache req.text req.language o.t_cache_get hmiss, hpe]
  split <;> exact ⟨rfl, rfl, rfl, ⟨_, rfl⟩⟩

/-- C7 counterexample: a request whose grammar capability fails (errors
list non-empty) still creates a cache entry -- `cache.set` runs before
success is even computed -- refuting "stores a result only when every
requested capability succeeded". -/
theorem C7_counterexample :
    (run_capabilities freshPipeline reqBoth (("Hallo Welt").data) oracleLtLoadFails).errors
      ≠ []
  ∧ dictHas (analyze freshPipeline reqBoth oracleLtLoadFails).2.cache.cache
      (generate_key (("Hallo Welt").data) (("de").data)) = true := by
  exact ⟨by decide, rfl⟩

/-- C7 amended: a cache entry is created on every cache-miss request that
survives preprocessing and validation, regardless of capability failures;
only a request that fails before the ANALYZE stage (e.g. empty or
whitespace-only input) creates no cache entry and touches no processor
map. -/
theorem C7_amended_cache_entry_policy :
    (∀ (p : LanguageAnalysisPipeline) (req : AnalysisRequest) (o : AnalyzeOracle)
        (processed : Str),
      p.is_initialized = true →
      dictFind? p.cache.cache (generate_key req.text req.language) = none →
      preprocess p.max_text_length req.text = Except.ok processed →
      validate_text_valid processed = true →
      dictHas (analyze p req o).2.cache.cache (generate_key req.text req.language) = true)
  ∧ (∀ (p : LanguageAnalysisPipeline) (req : AnalysisRequest) (o : AnalyzeOracle),
      p.is_initialized = true →
      dictFind? p.cache.cache (generate_key req.text req.language) = none →
      pyStrip req.text = [] →
      (analyze p req o).2.cache.cache = p.cache.cache
      ∧ (analyze p req o).2.stanza_processors = p.stanza_processors
      ∧ (analyze p req o).2.language_tool_processors = p.language_tool_processors
      ∧ ∃ e, (analyze p req o).1 = Except.error e) :=
  ⟨fun p req o processed h1 h2 h3 h4 =>
      analyze_creates_cache_entry p req o processed h1 h2 h3 h4,
   fun p req o h1 h2 h3 => analyze_ws_request_noop p req o h1 h2 h3⟩

/-- A request for whitespace-only text. -/
def reqWhitespace : AnalysisRequest :=
  { text := ("   ").data, language := ("de").data,
    include_grammar_check := true, include_morphological_analysis := true,
    include_dependency_parsing := true }

/-- C7 witness: the failed-grammar request creates its cache entry; the
whitespace request leaves cache and registries untouched and raises. -/
theorem C7_amended_cache_entry_policy_witness :
    dictHas (analyze freshPipeline reqBoth oracleLtLoadFails).2.cache.cache
        (generate_key reqBoth.text reqBoth.language) = true
  ∧ (analyze freshPipeline reqWhitespace oracleLtLoadFails).2.cache.cache
      = freshPipeline.cache.cache := by
  constructor
  · exact C7_amended_cache_entry_policy.1 freshPipeline reqBoth oracleLtLoadFails
      (("Hallo Welt").data) rfl (by decide) rfl (by decide)
  · exact (C7_amended_cache_entry_policy.2 freshPipeline reqWhitespace oracleLtLoadFails
      rfl (by decide) (by decide)).1

/-- A pipeline whose LanguageTool processor for `de-DE` is already
loaded. -/
def pipelineLtLoaded : LanguageAnalysisPipeline :=
  { freshPipeline with
      language_tool_processors :=
        [((("de-DE").data), { language := (("de-DE").data), is_loaded := true })] }

/-- A grammar-check-only request. -/
def reqGrammarOnly : AnalysisRequest :=
  { text := ("Hallo Welt").data, language := ("de").data,
    include_grammar_check := true, include_morphological_analysis := false,
    include_dependency_parsing := false }

/-- Oracle: the LanguageTool `check` call crashes (after a successful
load), as do the per-word fallback checks. -/
def oracleCheckCrashes : AnalyzeOracle :=
  { t_start := 0, t_cache_get := 0, stanza_load_ok := true, stanza_doc := Except.ok [],
    lt_load_ok := true, lt_check := Except.error (("LT crashed").data),
    lt_word_check := fun _ => Except.error (("LT crashed").data),
    t_cache_set := 1, t_end := 2, t_end2 := 3 }

/-- C8 counterexample: when the loaded grammar checker's `check` call
fails, `check_text` swallows the exception (falling back to a per-word
spell check and otherwise returning an empty list), so NO entry is
appended to the request's error list: the errors list stays empty, the
request succeeds, and the error counter stays 0 -- refuting "an entry
describing it is appended to the request's error list". -/
theorem C8_counterexample :
    (run_capabilities pipelineLtLoaded reqGrammarOnly (("Hallo Welt").data)
        oracleCheckCrashes).errors = []
  ∧ (analyze pipelineLtLoaded reqGrammarOnly oracleCheckCrashes).1
      = Except.ok { originalText := ("Hallo Welt").data, language := ("de").data,
                    sentences := [], errors := [] }
  ∧ (analyze pipelineLtLoaded reqGrammarOnly
        oracleCheckCrashes).2.performance_monitor.metrics.error_count = 0 := by
  exact ⟨rfl, rfl, rfl⟩

/-- C8 amended: a failed `check` call on a loaded grammar checker is
caught *inside* the processor: the capability returns the fallback
spell-check results (possibly empty) as a normal value, appends nothing
to the request's error list, and leaves the processor registry unchanged;
neither the sibling capability nor the request is aborted by it. -/
theorem C8_amended_check_failure_swallowed
    (reg : List (Str × LanguageToolProcessorHandle)) (req : AnalysisRequest)
    (processed_text : Str) (o : AnalyzeOracle) (e : Str)
    (hg : req.include_grammar_check = true)
    (hloaded : dictFind? reg (normalize_language_code req.language)
        = some { language := normalize_language_code req.language, is_loaded := true })
    (hcheck : o.lt_check = Except.error e)
    (htext : ¬ (processed_text = [] ∨ pyStrip processed_text = [])) :
    lt_capability reg req processed_text o
      = (fallback_spell_check processed_text o.lt_word_check, [], reg) := by
  unfold lt_capability get_language_tool_processor check_text
  simp [hg, hloaded, hcheck, htext]

/-- C8 witness: the concrete crashed check yields the (here empty)
fallback output, no error-list entry, and an unchanged registry. -/
theorem C8_amended_check_failure_swallowed_witness :
    lt_capability pipelineLtLoaded.language_tool_processors reqGrammarOnly
        (("Hallo Welt").data) oracleCheckCrashes
      = (fallback_spell_check (("Hallo Welt").data) oracleCheckCrashes.lt_word_check,
         [], pipelineLtLoaded.language_tool_processors) := by
  exact C8_amended_check_failure_swallowed pipelineLtLoaded.language_tool_processors
    reqGrammarOnly (("Hallo Welt").data) oracleCheckCrashes (("LT crashed").data)
    rfl (by decide) rfl (by decide)

/-- The map entry `set` writes for an insert `(text, result, time)`. -/
def entryOf {α : Type} (lang : Str) (it : Str × α × ℚ) : Str × CacheEntry α :=
  (generate_key it.1 lang,
   { result := it.2.1, timestamp := it.2.2, access_count := 1, last_accessed := it.2.2 })

/-- Fold `set` over a list of `(text, result, time)` inserts (fixed
language). -/
def setAll {α : Type} (lang : Str) : AnalysisCache α → List (Str × α × ℚ) → AnalysisCache α
  | c, [] => c
  | c, it :: rest => setAll lang (c.set it.1 it.2.1 lang it.2.2) rest

theorem setAll_append {α : Type} (lang : Str) (xs ys : List (Str × α × ℚ))
    (c : AnalysisCache α) :
    setAll lang c (xs ++ ys) = setAll lang (setAll lang c xs) ys := by
  induction xs generalizing c with
  | nil => simp [setAll]
  | cons x rest ih =>
    simp only [List.cons_append, setAll]
    exact ih _

theorem set_fresh_below_capacity {α : Type} (c : AnalysisCache α) (text : Str) (r : α)
    (lang : Str) (now : ℚ)
    (hlen : c.cache.length < c.max_size)
    (hfresh : dictFind? c.cache (generate_key text lang) = none) :
    (c.set text r lang now).cache = c.cache ++ [entryOf lang (text, r, now)] := by
  unfold AnalysisCache.set
  have h : ¬ (c.cache.length ≥ c.max_size) := not_le.mpr hlen
  simp only [h, if_false]
  exact dictSet_absent _ _ _ hfresh

theorem setAll_fresh {α : Type} (lang : Str) (items : List (Str × α × ℚ))
    (c : AnalysisCache α)
    (hroom : c.cache.length + items.length ≤ c.max_size)
    (hfresh : ∀ it ∈ items, dictFind? c.cache (generate_key it.1 lang) = none)
    (hdist : (items.map (fun it => generate_key it.1 lang)).Nodup) :
    (setAll lang c items).cache = c.cache ++ items.map (entryOf lang)
    ∧ (setAll lang c items).max_size = c.max_size := by
  induction items generalizing c with
  | nil => simp [setAll]
  | cons it rest ih =>
    have hlen : c.cache.length < c.max_size := by
      simp only [List.length_cons] at hroom
      omega
    have hf0 : dictFind? c.cache (generate_key it.1 lang) = none :=
      hfresh it (List.mem_cons_self _ _)
    have hshape := set_fresh_below_capacity c it.1 it.2.1 lang it.2.2 hlen hf0
    have hmax : (c.set it.1 it.2.1 lang it.2.2).max_size = c.max_size :=
      set_max_size c it.1 it.2.1 lang it.2.2
    rw [List.map_cons, List.nodup_cons] at hdist
    have hrec := ih (c.set it.1 it.2.1 lang it.2.2)
      (by
        rw [hshape, hmax, List.length_append]
        simp only [List.length_cons] at hroom
        simp only [List.length_singleton]
        omega)
      (by
        intro it' hit'
        rw [hshape]
        rw [dictFind?_append_left_none _ _ _ (hfresh it' (List.mem_cons_of_mem _ hit'))]
        have hne : generate_key it.1 lang ≠ generate_key it'.1 lang := by
          intro hE
          apply hdist.1
          rw [hE]
          exact List.mem_map_of_mem _ hit'
        simp [dictFind?, entryOf, hne])
      hdist.2
    constructor
    · show (setAll lang (c.set it.1 it.2.1 lang it.2.2) rest).cache = _
      rw [hrec.1, hshape, List.map_cons, List.append_assoc]
      rfl
    · show (setAll lang (c.set it.1 it.2.1 lang it.2.2) rest).max_size = _
      rw [hrec.2, hmax]

theorem evictKey_isSome_of_ne_nil {α : Type} (m : List (Str × CacheEntry α))
    (h : m ≠ []) : ∃ k, evictKey m = some k := by
  cases m with
  | nil => exact absurd rfl h
  | cons p rest => exact ⟨_, rfl⟩

theorem applyOp_length {α : Type} (c : AnalysisCache α) (op : CacheOp α)
    (hmax : 1 ≤ c.max_size) (hlen : c.cache.length ≤ c.max_size) :
    (applyOp c op).cache.length ≤ c.max_size ∧ (applyOp c op).max_size = c.max_size := by
  cases op with
  | get text lang now =>
    unfold applyOp AnalysisCache.get
    rcases h : dictFind? c.cache (generate_key text lang) with _ | entry
    · simp only [h]
      exact ⟨hlen, trivial⟩
    · by_cases hexp : now - entry.timestamp > c.ttl_seconds
      · simp only [h, hexp, if_true]
        exact ⟨le_trans (dictDel_length_le _ _) hlen, trivial⟩
      · simp only [h, hexp, if_false]
        rw [dictSet_length_present _ _ _ (by rw [h]; rfl)]
        exact ⟨hlen, trivial⟩
  | set text r lang now =>
    show ((c.set text r lang now).cache.length ≤ c.max_size
      ∧ (c.set text r lang now).max_size = c.max_size)
    refine ⟨?_, set_max_size c text r lang now⟩
    unfold AnalysisCache.set AnalysisCache.evict_oldest
    by_cases hcap : c.cache.length ≥ c.max_size
    · have hne : c.cache ≠ [] := by
        intro hnil
        rw [hnil] at hcap
        simp only [List.length_nil] at hcap
        omega
      obtain ⟨k, hk⟩ := evictKey_isSome_of_ne_nil c.cache hne
      obtain ⟨e, hmem, _⟩ := evictKey_spec c.cache k hk
      have hkmem : k ∈ dictKeys c.cache := List.mem_map_of_mem Prod.fst hmem
      have hdel : (dictDel c.cache k).length + 1 = c.cache.length :=
        dictDel_length_present _ _ (dictFind?_isSome_of_mem _ _ hkmem)
      simp only [hcap, if_true, hk]
      have := dictSet_length_le (dictDel c.cache k) (generate_key text lang)
        ({ result := r, timestamp := now, access_count := 1, last_accessed := now } :
          CacheEntry α)
      omega
    · simp only [hcap, if_false]
      have := dictSet_length_le c.cache (generate_key text lang)
        ({ result := r, timestamp := now, access_count := 1, last_accessed := now } :
          CacheEntry α)
      have hlt : c.cache.length < c.max_size := not_le.mp hcap
      omega
  | clear =>
    unfold applyOp AnalysisCache.clear
    exact ⟨Nat.zero_le _, rfl⟩

theorem applyOps_length {α : Type} (ops : List (CacheOp α)) (c : AnalysisCache α)
    (hmax : 1 ≤ c.max_size) (hlen : c.cache.length ≤ c.max_size) :
    (applyOps c ops).cache.length ≤ c.max_size := by
  induction ops generalizing c with
  | nil => exact hlen
  | cons op rest ih =>
    have h := applyOp_length c op hmax hlen
    have hstep : applyOps c (op :: rest) = applyOps (applyOp c op) rest := rfl
    rw [hstep, ← h.2]
    exact ih (applyOp c op) (h.2 ▸ hmax) (h.2 ▸ h.1)

theorem set_at_capacity_evicts_lru {α : Type} (c : AnalysisCache α) (text : Str) (r : α)
    (language : Str) (now : ℚ)
    (hnd : (dictKeys c.cache).Nodup)
    (hcap : c.cache.length ≥ c.max_size) (hne : c.cache ≠ []) :
    ∃ ek ee, evictKey c.cache = some ek
      ∧ dictFind? c.cache ek = some ee
      ∧ (∀ p ∈ c.cache, ee.last_accessed ≤ p.2.last_accessed)
      ∧ (c.set text r language now).cache
          = dictSet (dictDel c.cache ek) (generate_key text language)
              { result := r, timestamp := now, access_count := 1, last_accessed := now } := by
  obtain ⟨ek, hk⟩ := evictKey_isSome_of_ne_nil c.cache hne
  obtain ⟨ee, hmem, hmin⟩ := evictKey_spec c.cache ek hk
  exact ⟨ek, ee, hk, dictFind?_of_mem_nodup _ _ _ hmem hnd, hmin,
         set_at_capacity_shape c text r language now ek hcap hk⟩

theorem dictKeys_map_entryOf {α : Type} (lang : Str) (items : List (Str × α × ℚ)) :
    dictKeys (items.map (entryOf lang))
      = items.map (fun it => generate_key it.1 lang) := by
  induction items with
  | nil => rfl
  | cons it rest ih =>
    simp only [List.map_cons, dictKeys_cons]
    rw [ih]
    rfl

/-- Inserting `m + 1` fresh, pairwise-distinct keys at strictly
increasing times into a fresh cache of capacity `m` leaves exactly `m`
entries: the first (least recently accessed) key is evicted and all
later keys survive. -/
theorem setAll_overflow_scenario (α : Type) (m : Nat) (ttl : ℚ) (lang : Str)
    (first : Str × α × ℚ) (rest : List (Str × α × ℚ)) (last1 : Str × α × ℚ)
    (hm : 1 ≤ m) (hlen : (first :: rest).length = m)
    (hnd : ((first :: rest ++ [last1]).map (fun it => generate_key it.1 lang)).Nodup)
    (hinc : ((first :: rest ++ [last1]).map (fun it => it.2.2)).Pairwise (· < ·)) :
    (setAll lang (AnalysisCache.init α m ttl) (first :: rest ++ [last1])).cache.length = m
  ∧ dictFind? (setAll lang (AnalysisCache.init α m ttl)
        (first :: rest ++ [last1])).cache (generate_key first.1 lang) = none
  ∧ ∀ it ∈ rest ++ [last1],
      dictHas (setAll lang (AnalysisCache.init α m ttl)
        (first :: rest ++ [last1])).cache (generate_key it.1 lang) = true := by
  -- Note `first :: rest ++ [last1]` parses as `(first :: rest) ++ [last1]`.
  -- decompose the distinctness and ordering hypotheses
  have hnd2 := List.nodup_append.mp
    (show (((first :: rest).map (fun it => generate_key it.1 lang))
        ++ [last1].map (fun it => generate_key it.1 lang)).Nodup from
      (List.map_append _ _ _) ▸ hnd)
  have hndA : ((first :: rest).map (fun it => generate_key it.1 lang)).Nodup := hnd2.1
  have hndA2 := List.nodup_cons.mp hndA
  have hrest_nodup : (rest.map (fun it => generate_key it.1 lang)).Nodup := hndA2.2
  have hk0_ne_kL : generate_key first.1 lang ≠ generate_key last1.1 lang := by
    intro hE
    exact hnd2.2.2 (List.mem_cons_self _ _) (by simpa using hE)
  have hk0_notmem : generate_key first.1 lang
      ∉ rest.map (fun it => generate_key it.1 lang)
        ++ [generate_key last1.1 lang] := by
    intro hmem
    rcases List.mem_append.mp hmem with h | h
    · exact hndA2.1 h
    · exact hk0_ne_kL (List.mem_singleton.mp h)
  have hkL_notmem : generate_key last1.1 lang
      ∉ rest.map (fun it => generate_key it.1 lang) := by
    intro hmem
    exact hnd2.2.2 (List.mem_cons_of_mem _ hmem) (by simp)
  have hinc2 := List.pairwise_append.mp
    (show (((first :: rest).map (fun it => it.2.2))
        ++ [last1].map (fun it => it.2.2)).Pairwise (· < ·) from
      (List.map_append _ _ _) ▸ hinc)
  have hinc3 := List.pairwise_cons.mp hinc2.1
  have hfirst_lt : ∀ it ∈ rest ++ [last1], first.2.2 < it.2.2 := by
    intro it hit
    rcases List.mem_append.mp hit with h | h
    · exact hinc3.1 _ (List.mem_map_of_mem _ h)
    · rw [List.mem_singleton.mp h]
      exact hinc2.2.2 _ (List.mem_cons_self _ _) _ (by simp)
  -- the first m inserts fill the fresh cache without eviction
  have hfill := setAll_fresh lang (first :: rest) (AnalysisCache.init α m ttl)
    (by simp [AnalysisCache.init, hlen])
    (fun it _ => rfl)
    hndA
  set cM := setAll lang (AnalysisCache.init α m ttl) (first :: rest) with hcM
  have hcache : cM.cache = (first :: rest).map (entryOf lang) := by
    rw [hfill.1]
    simp [AnalysisCache.init]
  have hmaxM : cM.max_size = m := hfill.2
  have hlenM : cM.cache.length = m := by
    rw [hcache, List.length_map, hlen]
  -- the (m+1)-th insert hits capacity and evicts the first key
  have hstep : setAll lang (AnalysisCache.init α m ttl) (first :: rest ++ [last1])
      = cM.set last1.1 last1.2.1 lang last1.2.2 :=
    setAll_append lang (first :: rest) [last1] (AnalysisCache.init α m ttl)
  have hk0 : evictKey cM.cache = some (generate_key first.1 lang) := by
    rw [hcache, List.map_cons]
    have hmin : evictAux (α := α)
        ((entryOf lang first).1, (entryOf lang first).2.last_accessed)
        (rest.map (entryOf lang))
        = ((entryOf lang first).1, (entryOf lang first).2.last_accessed) := by
      apply evictAux_of_lt
      intro p hp
      obtain ⟨it, hit, hper⟩ := List.mem_map.mp hp
      rw [← hper]
      show ¬ (entryOf lang it).2.last_accessed < (entryOf lang first).2.last_accessed
      exact not_lt.mpr (le_of_lt (hfirst_lt it (List.mem_append_left _ hit)))
    show some (evictAux (α := α)
        ((entryOf lang first).1, (entryOf lang first).2.last_accessed)
        (rest.map (entryOf lang))).1 = some (generate_key first.1 lang)
    rw [hmin]
    rfl
  have hshape := set_at_capacity_shape cM last1.1 last1.2.1 lang last1.2.2
      (generate_key first.1 lang) (by rw [hlenM, hmaxM]) hk0
  have hdel : dictDel cM.cache (generate_key first.1 lang) = rest.map (entryOf lang) := by
    rw [hcache, List.map_cons]
    show (if (entryOf lang first).1 = generate_key first.1 lang
        then rest.map (entryOf lang)
        else entryOf lang first :: dictDel (rest.map (entryOf lang))
          (generate_key first.1 lang)) = rest.map (entryOf lang)
    rw [if_pos (show (entryOf lang first).1 = generate_key first.1 lang from rfl)]
  have hLfresh : dictFind? (rest.map (entryOf lang)) (generate_key last1.1 lang) = none := by
    apply dictFind?_eq_none_of_not_mem
    rw [dictKeys_map_entryOf]
    exact hkL_notmem
  have hsetshape : (cM.set last1.1 last1.2.1 lang last1.2.2).cache
      = rest.map (entryOf lang) ++ [entryOf lang last1] := by
    rw [hshape, hdel, dictSet_absent _ _ _ hLfresh]
    rfl
  have hkeys : dictKeys (rest.map (entryOf lang) ++ [entryOf lang last1])
      = rest.map (fun it => generate_key it.1 lang) ++ [generate_key last1.1 lang] := by
    have h1 : rest.map (entryOf lang) ++ [entryOf lang last1]
        = (rest ++ [last1]).map (entryOf lang) := by
      rw [List.map_append]
      rfl
    rw [h1, dictKeys_map_entryOf, List.map_append]
    rfl
  refine ⟨?_, ?_, ?_⟩
  · rw [hstep, hsetshape, List.length_append, List.length_map]
    simp only [List.length_cons] at hlen
    simp only [List.length_singleton]
    omega
  · rw [hstep, hsetshape]
    apply dictFind?_eq_none_of_not_mem
    rw [hkeys]
    exact hk0_notmem
  · intro it hit
    rw [hstep, hsetshape]
    unfold dictHas
    have hmem : generate_key it.1 lang
        ∈ dictKeys (rest.map (entryOf lang) ++ [entryOf lang last1]) := by
      rw [hkeys]
      rcases List.mem_append.mp hit with h | h
      · exact List.mem_append_left _ (List.mem_map_of_mem _ h)
      · rw [List.mem_singleton.mp h]
        exact List.mem_append_right _ (List.mem_singleton_self _)
    have := dictFind?_isSome_of_mem _ _ hmem
    simpa using this

/-- C5 counterexample: the claim's bound fails for a cache configured
with `max_size = 0` -- a `set` on the empty cache evicts nothing and
inserts, leaving 1 > 0 entries. -/
theorem C5_counterexample :
    (applyOps (AnalysisCache.init Nat 0 3600)
        [CacheOp.set (("a").data) 1 (("de").data) 0]).cache.length
      > (AnalysisCache.init Nat 0 3600).max_size := by
  decide

/-- C5 amended (claim restricted to positive capacities, `1 ≤ max_size`;
the default is 1000): (1) after any sequence of get/set/clear operations
the cache holds at most `max_size` entries; (2) a `set` at capacity first
evicts an entry whose `last_accessed` is minimal (LRU; ties keep the
earliest-inserted); (3) inserting `max_size + 1` distinct keys at
strictly increasing times into a fresh cache leaves exactly `max_size`
entries, with the least-recently-accessed (first) key gone and all later
keys present. -/
theorem C5_cache_bound_and_lru_eviction :
    (∀ (α : Type) (c : AnalysisCache α) (ops : List (CacheOp α)),
        1 ≤ c.max_size → c.cache.length ≤ c.max_size →
        (applyOps c ops).cache.length ≤ c.max_size)
  ∧ (∀ (α : Type) (c : AnalysisCache α) (text : Str) (r : α) (language : Str) (now : ℚ),
        (dictKeys c.cache).Nodup → c.cache.length ≥ c.max_size → c.cache ≠ [] →
        ∃ ek ee, evictKey c.cache = some ek
          ∧ dictFind? c.cache ek = some ee
          ∧ (∀ p ∈ c.cache, ee.last_accessed ≤ p.2.last_accessed)
          ∧ (c.set text r language now).cache
              = dictSet (dictDel c.cache ek) (generate_key text language)
                  { result := r, timestamp := now, access_count := 1,
                    last_accessed := now })
  ∧ (∀ (α : Type) (m : Nat) (ttl : ℚ) (lang : Str) (first : Str × α × ℚ)
        (rest : List (Str × α × ℚ)) (last1 : Str × α × ℚ),
        1 ≤ m → (first :: rest).length = m →
        ((first :: rest ++ [last1]).map (fun it => generate_key it.1 lang)).Nodup →
        ((first :: rest ++ [last1]).map (fun it => it.2.2)).Pairwise (· < ·) →
        (setAll lang (AnalysisCache.init α m ttl)
            (first :: rest ++ [last1])).cache.length = m
        ∧ dictFind? (setAll lang (AnalysisCache.init α m ttl)
              (first :: rest ++ [last1])).cache (generate_key first.1 lang) = none
        ∧ ∀ it ∈ rest ++ [last1],
            dictHas (setAll lang (AnalysisCache.init α m ttl)
              (first :: rest ++ [last1])).cache (generate_key it.1 lang) = true) :=
  ⟨fun _ c ops h1 h2 => applyOps_length ops c h1 h2,
   fun _ c text r language now h1 h2 h3 =>
     set_at_capacity_evicts_lru c text r language now h1 h2 h3,
   fun α m ttl lang first rest last1 h1 h2 h3 h4 =>
     setAll_overflow_scenario α m ttl lang first rest last1 h1 h2 h3 h4⟩

/-- C5 witness: three sets on a fresh capacity-2 cache stay within the
bound; inserting 3 distinct keys leaves exactly 2 entries with the first
key evicted. -/
theorem C5_cache_bound_and_lru_eviction_witness :
    (applyOps (AnalysisCache.init Nat 2 3600)
        [CacheOp.set (("a").data) 1 (("de").data) 0,
         CacheOp.set (("b").data) 2 (("de").data) 1,
         CacheOp.set (("c").data) 3 (("de").data) 2]).cache.length ≤ 2
  ∧ (setAll (("de").data) (AnalysisCache.init Nat 2 3600)
        [((("a").data), 1, 0), ((("b").data), 2, 1), ((("c").data), 3, 2)]).cache.length = 2
  ∧ dictFind? (setAll (("de").data) (AnalysisCache.init Nat 2 3600)
        [((("a").data), 1, 0), ((("b").data), 2, 1), ((("c").data), 3, 2)]).cache
      (generate_key (("a").data) (("de").data)) = none := by
  refine ⟨?_, ?_, ?_⟩
  · exact C5_cache_bound_and_lru_eviction.1 Nat (AnalysisCache.init Nat 2 3600) _
      (by decide) (by decide)
  · exact (C5_cache_bound_and_lru_eviction.2.2 Nat 2 3600 (("de").data)
      ((("a").data), 1, (0 : ℚ)) [((("b").data), 2, (1 : ℚ))] ((("c").data), 3, (2 : ℚ))
      (by decide) (by decide) (by decide) (by decide)).1
  · exact (C5_cache_bound_and_lru_eviction.2.2 Nat 2 3600 (("de").data)
      ((("a").data), 1, (0 : ℚ)) [((("b").data), 2, (1 : ℚ))] ((("c").data), 3, (2 : ℚ))
      (by decide) (by decide) (by decide) (by decide)).2.1
